import Mathlib

/-!
# Verification of the Glyphify pixel-to-glyph and GIF encoding pipeline

Shallow embedding of the core of the Glyphify repository:
`ASCIIConverter` (per-pixel brightness/contrast transform, glyph indexing,
text/markup serialization), `GIFEncoder` / `NeuQuant` / `LZWEncoder`
(GIF89a emission), and the renderer's frame-cache resampling.

JavaScript `number`s are modelled by `ℚ` (all relevant computations are
exact, away from division by zero); the special IEEE values needed to
analyse the contrast division by zero are modelled by an explicit `JSVal`
type.  Strings are modelled by `List Char`.
-/

namespace Glyphify

/-- RGB triplet of (rounded, integer) channel values. -/
abbrev RGB := ℤ × ℤ × ℤ

/-! ## ASCIIConverter options (`constructor`, source part_001 lines 33-57)

Only the fields the verified operations consult are carried. -/

/-- `colorMode` option: `'color'` or `'grayscale'`. -/
inductive ColorMode where
  | color
  | grayscale
deriving DecidableEq

/-- Converter options (defaults as in the source constructor). -/
structure ConvOptions where
  width : ℕ := 100
  charsetName : String := "standard"
  customCharset : List Char := []
  colorMode : ColorMode := ColorMode.color
  /-- `colorPalette`: `none` models the `full` (pass-through) mode where
  `COLOR_PALETTES[mode]` is `null`; `some pal` models a fixed palette,
  with the hex strings of the source parsed into RGB triplets. -/
  colorPalette : Option (List RGB) := none
  contrast : ℚ := 100
  brightness : ℚ := 100
  invert : Bool := false

/-- `ASCIIConverter.CHARSETS` (part_001 lines 8-16), keyed by name. -/
def CHARSETS (name : String) : Option (List Char) :=
  if name = "standard" then some ("@%#*+=-:. ".toList)
  else if name = "detailed" then
    some ("$@B%8&WM#*oahkbdpqwmZO0QLCJUYXzcvunxrjft/\\|()1\x7b\x7d[]?-_+~<>i!lI;:,\"^`'. ".toList)
  else if name = "blocks" then some ("█▓▒░ ".toList)
  else if name = "simple" then some ("#. ".toList)
  else if name = "binary" then some ("01".toList)
  else if name = "braille" then some ("⣿⣷⣶⣦⣤⣄⡄⡀ ".toList)
  else if name = "dots" then some ("⠿⠾⠼⠸⠰⠠⠀".toList)
  else none

/-- `getCharset` (part_001 lines 123-128): a non-empty `customCharset`
(JS truthiness: `null` and `''` are both falsy, modelled by `[]`) wins,
else the named charset, else `standard`. -/
def getCharset (o : ConvOptions) : List Char :=
  if o.customCharset ≠ [] then o.customCharset
  else (CHARSETS o.charsetName).getD (("@%#*+=-:. ").toList)

/-! ## Per-pixel math (`adjustPixel`, `rgbToGray`, `brightnessToChar`) -/

/-- `adjustPixel` (part_001 lines 133-142) over exact rationals:
brightness scale, contrast curve, clamp to `[0, 255]`.
Faithful to the source for every configuration whose contrast-curve
denominator `255·(259 − contrast)` is non-zero (the only case where JS
float specials appear; that case is modelled separately by
`adjustPixelJS`). -/
def adjustPixel (brightness contrast value : ℚ) : ℚ :=
  let adjusted := value * (brightness / 100)
  let factor := (259 * (contrast + 255)) / (255 * (259 - contrast))
  let adjusted := factor * (adjusted - 128) + 128
  max 0 (min 255 adjusted)

/-- The per-pixel transform applied to an RGB triplet channel-wise, as in
`processPixels` (part_001 lines 284-295, same arithmetic as `adjustPixel`). -/
def adjustTriplet (brightness contrast : ℚ) (p : ℚ × ℚ × ℚ) : ℚ × ℚ × ℚ :=
  (adjustPixel brightness contrast p.1,
   adjustPixel brightness contrast p.2.1,
   adjustPixel brightness contrast p.2.2)

/-- `rgbToGray` (part_001 lines 147-150): luminance. -/
def rgbToGray (r g b : ℚ) : ℚ :=
  (299 / 1000) * r + (587 / 1000) * g + (114 / 1000) * b

/-- The glyph index computed by `brightnessToChar` (part_001 lines
155-167) before the lookup: `Math.floor` of the (possibly inverted)
normalized brightness scaled by `|S| − 1`, then clamped via
`Math.max(0, Math.min(|S| − 1, index))`. -/
def brightnessToCharIndex (o : ConvOptions) (brightness : ℚ) : ℤ :=
  let charset := getCharset o
  let normalizedBrightness := brightness / 255
  let index : ℤ :=
    if o.invert then ⌊normalizedBrightness * ((charset.length : ℚ) - 1)⌋
    else ⌊(1 - normalizedBrightness) * ((charset.length : ℚ) - 1)⌋
  max 0 (min ((charset.length : ℤ) - 1) index)

/-- `brightnessToChar` (part_001 lines 155-167): the glyph at the clamped
index (total lookup; the accompanying theorem shows the index is always in
bounds). -/
def brightnessToChar (o : ConvOptions) (brightness : ℚ) : Char :=
  (getCharset o).getD (brightnessToCharIndex o brightness).toNat ' '

/-! ## JS float specials for the contrast division by zero (claim C5)

`adjustPixel` evaluated under exact JavaScript `number` semantics,
including `Infinity` and `NaN`, to settle what happens at
`contrast = 259`. -/

/-- A JavaScript number: a finite value (exact rational) or a special. -/
inductive JSVal where
  | num (q : ℚ)
  | nan
  | pinf
  | ninf
deriving DecidableEq

namespace JSVal

/-- JS `+`. -/
def add : JSVal → JSVal → JSVal
  | num a, num b => num (a + b)
  | num _, pinf => pinf
  | num _, ninf => ninf
  | pinf, num _ => pinf
  | ninf, num _ => ninf
  | pinf, pinf => pinf
  | ninf, ninf => ninf
  | pinf, ninf => nan
  | ninf, pinf => nan
  | _, _ => nan

/-- JS `-`. -/
def sub : JSVal → JSVal → JSVal
  | num a, num b => num (a - b)
  | num _, pinf => ninf
  | num _, ninf => pinf
  | pinf, num _ => pinf
  | ninf, num _ => ninf
  | pinf, ninf => pinf
  | ninf, pinf => ninf
  | pinf, pinf => nan
  | ninf, ninf => nan
  | _, _ => nan

/-- JS `*` (`∞ · 0 = NaN`). -/
def mul : JSVal → JSVal → JSVal
  | num a, num b => num (a * b)
  | num a, pinf => if a > 0 then pinf else if a < 0 then ninf else nan
  | num a, ninf => if a > 0 then ninf else if a < 0 then pinf else nan
  | pinf, num b => if b > 0 then pinf else if b < 0 then ninf else nan
  | ninf, num b => if b > 0 then ninf else if b < 0 then pinf else nan
  | pinf, pinf => pinf
  | ninf, ninf => pinf
  | pinf, ninf => ninf
  | ninf, pinf => ninf
  | _, _ => nan

/-- JS `/` (positive-zero denominators only arise here;
`x / 0 = ±∞` for `x ≠ 0`, `0 / 0 = NaN`). -/
def div : JSVal → JSVal → JSVal
  | num a, num b =>
      if b ≠ 0 then num (a / b)
      else if a > 0 then pinf else if a < 0 then ninf else nan
  | num _, pinf => num 0
  | num _, ninf => num 0
  | pinf, num b => if b ≥ 0 then pinf else ninf
  | ninf, num b => if b ≥ 0 then ninf else pinf
  | _, _ => nan

/-- `Math.min` (NaN-propagating). -/
def minJ : JSVal → JSVal → JSVal
  | num a, num b => num (min a b)
  | num a, pinf => num a
  | pinf, num b => num b
  | num _, ninf => ninf
  | ninf, num _ => ninf
  | pinf, pinf => pinf
  | ninf, ninf => ninf
  | pinf, ninf => ninf
  | ninf, pinf => ninf
  | _, _ => nan

/-- `Math.max` (NaN-propagating). -/
def maxJ : JSVal → JSVal → JSVal
  | num a, num b => num (max a b)
  | num a, ninf => num a
  | ninf, num b => num b
  | num _, pinf => pinf
  | pinf, num _ => pinf
  | pinf, pinf => pinf
  | ninf, ninf => ninf
  | pinf, ninf => pinf
  | ninf, pinf => pinf
  | _, _ => nan

end JSVal

/-- `adjustPixel` (part_001 lines 133-142) under exact JS `number`
semantics with specials: used to analyse `contrast = 259`, where the
contrast-curve denominator `255 · (259 − contrast)` is zero.  The source
contains no guard, clamp, or error path for this configuration. -/
def adjustPixelJS (brightness contrast value : ℚ) : JSVal :=
  let adjusted := JSVal.mul (JSVal.num value) (JSVal.div (JSVal.num brightness) (JSVal.num 100))
  let factor := JSVal.div
    (JSVal.mul (JSVal.num 259) (JSVal.add (JSVal.num contrast) (JSVal.num 255)))
    (JSVal.mul (JSVal.num 255) (JSVal.sub (JSVal.num 259) (JSVal.num contrast)))
  let adjusted := JSVal.add (JSVal.mul factor (JSVal.sub adjusted (JSVal.num 128))) (JSVal.num 128)
  JSVal.maxJ (JSVal.num 0) (JSVal.minJ (JSVal.num 255) adjusted)

/-! ## `processPixels` and the glyph grid -/

/-- `Math.round` for the (non-negative, clamped) channel values:
`⌊q + 1/2⌋`. -/
def jsRound (q : ℚ) : ℤ := ⌊q + 1 / 2⌋

/-- One cell of `processPixels` (part_001 lines 280-307): the inline
brightness/contrast/clamp arithmetic there is channel-wise identical to
`adjustPixel`; then luminance, glyph choice, and the cell color
(`colorMode` selects post-adjust RGB or the rounded luminance). -/
def processCell (o : ConvOptions) (pixels : List ℚ) (width y x : ℕ) : Char × RGB :=
  let idx := (y * width + x) * 4
  let r := adjustPixel o.brightness o.contrast (pixels.getD idx 0)
  let g := adjustPixel o.brightness o.contrast (pixels.getD (idx + 1) 0)
  let b := adjustPixel o.brightness o.contrast (pixels.getD (idx + 2) 0)
  let grayscale := rgbToGray r g b
  let ch := brightnessToChar o grayscale
  let col : RGB :=
    if o.colorMode = ColorMode.color then (jsRound r, jsRound g, jsRound b)
    else (jsRound grayscale, jsRound grayscale, jsRound grayscale)
  (ch, col)

/-- `processPixels` (part_001 lines 267-324), with the source's parallel
`lines[y][x]` / `colorData[y][x]` arrays zipped into rows of
(glyph, color) cells. -/
def processPixels (o : ConvOptions) (pixels : List ℚ) (width height : ℕ) :
    List (List (Char × RGB)) :=
  (List.range height).map fun y =>
    (List.range width).map fun x => processCell o pixels width y x

/-- The braille-pattern-blank normalization applied to the plain-text
output (part_001 line 315: `l.replace(/⠀/g, ' ')`). -/
def normalizeChar (c : Char) : Char := if c = '⠀' then ' ' else c

/-- The `text` field of the `processPixels` result (part_001 lines
314-318): rows, braille blanks normalized to spaces, joined by `'\n'`. -/
def asciiText (grid : List (List (Char × RGB))) : List Char :=
  List.intercalate ['\n'] (grid.map fun row => row.map fun cl => normalizeChar cl.1)

/-- The target grid height of `convertImageData` / `convertImage`
(part_001 lines 176-180 and 225-229):
`Math.floor(width * (h_src / w_src) * 0.5)`. -/
def convertHeight (o : ConvOptions) (wsrc hsrc : ℕ) : ℕ :=
  (⌊(o.width : ℚ) * ((hsrc : ℚ) / (wsrc : ℚ)) * (1 / 2)⌋).toNat

/-- `convertImageData` (part_001 lines 222-262): computes the target
grid size and runs `processPixels` on the canvas-rescaled pixel data.
The browser's `drawImage` resampling is outside the source; the rescaled
pixel buffer is therefore a parameter (the claims settled here concern
only the grid's dimensions, which do not depend on it). -/
def convertImageData (o : ConvOptions) (scaledPixels : List ℚ) (wsrc hsrc : ℕ) :
    List (List (Char × RGB)) :=
  processPixels o scaledPixels o.width (convertHeight o wsrc hsrc)

/-! ## Claim C7: nearest palette color (`findClosestColor`) -/

/-- Squared Euclidean RGB distance.  The source (part_001 lines 105-109)
takes `Math.sqrt` of this sum; since the value is only ever used in
strict `<` comparisons and `sqrt` is strictly monotone on non-negative
reals, the comparisons — and hence the loop's result — are unchanged by
carrying the square instead. -/
def dist2 (r g b : ℤ) (p : RGB) : ℤ :=
  (r - p.1) ^ 2 + (g - p.2.1) ^ 2 + (b - p.2.2) ^ 2

/-- The scan loop of `findClosestColor` (part_001 lines 99-115):
`minDist` starts as `Infinity` (modelled `none`, against which every
distance compares smaller), and only a strictly smaller distance
replaces the current best, so the earliest minimizer is kept. -/
def closestGo (r g b : ℤ) : List RGB → RGB → Option ℤ → RGB
  | [], best, _ => best
  | p :: rest, _, none => closestGo r g b rest p (some (dist2 r g b p))
  | p :: rest, best, some m =>
      if dist2 r g b p < m then closestGo r g b rest p (some (dist2 r g b p))
      else closestGo r g b rest best (some m)

/-- `findClosestColor` (part_001 lines 92-118).  `none` models the
`full` palette mode (`COLOR_PALETTES.full = null`), where the raw
triplet is passed through as `rgb(r,g,b)`; for a palette, `minDist`
starts at `Infinity` and `closestColor` at `palette[0]`, then the whole
palette is scanned. -/
def findClosestColor (palette : Option (List RGB)) (r g b : ℤ) : RGB :=
  match palette with
  | none => (r, g, b)
  | some pal => closestGo r g b pal (pal.headD (0, 0, 0)) none

/-! ## Claim C8: text export vs. colored markup (`generateDisplayHTML`)

The colored markup generator (part_001 lines 389-436), the HTML escape
map (lines 505-514), and the plain-text projection the claim defines
(strip style spans, undo HTML escaping). -/

/-- `isBlankChar` (part_001 lines 521-523): ASCII space or braille
pattern blank U+2800. -/
def isBlankChar (c : Char) : Bool := c = ' ' || c = '⠀'

/-- `escapeHTML`'s per-character map (part_001 lines 505-514). -/
def escapeChar (c : Char) : List Char :=
  if c = '&' then "&amp;".toList
  else if c = '<' then "&lt;".toList
  else if c = '>' then "&gt;".toList
  else if c = '"' then "&quot;".toList
  else if c = '\'' then "&#039;".toList
  else [c]

/-- `escapeHTML` (part_001 lines 505-514) on a character list. -/
def escapeHTML (s : List Char) : List Char := s.flatMap escapeChar

/-- Decimal digit character. -/
def digitChar (n : ℕ) : Char := "0123456789".toList.getD n '0'

/-- Decimal digits of `n` (JS number-to-string for the naturals used in
`rgb(r,g,b)` interpolations), with a structural fuel argument
(`fuel > n` suffices since the argument shrinks by a factor 10). -/
def natDigitsGo : ℕ → ℕ → List Char
  | 0, _ => []
  | fuel + 1, n =>
      if n < 10 then [digitChar n]
      else natDigitsGo fuel (n / 10) ++ [digitChar (n % 10)]

/-- Decimal representation of a natural. -/
def natDigits (n : ℕ) : List Char := natDigitsGo (n + 1) n

/-- Decimal representation of an integer. -/
def intStr (z : ℤ) : List Char :=
  if z < 0 then '-' :: natDigits z.natAbs else natDigits z.toNat

/-- The interpolated string `rgb(${r},${g},${b})` (part_001 lines 94,
408). -/
def rgbString (p : RGB) : List Char :=
  "rgb(".toList ++ intStr p.1 ++ [','] ++ intStr p.2.1 ++ [','] ++
    intStr p.2.2 ++ [')']

/-- Lowercase hex digit character. -/
def hexDigit (n : ℕ) : Char := "0123456789abcdef".toList.getD n '0'

/-- Two lowercase hex digits of a byte value. -/
def hex2 (z : ℤ) : List Char :=
  [hexDigit (z.toNat / 16 % 16), hexDigit (z.toNat % 16)]

/-- A palette entry rendered as its `#rrggbb` literal (the source
palettes store colors as lowercase hex strings and `findClosestColor`
returns the stored literal; here the parsed triplet is re-rendered). -/
def hexString (p : RGB) : List Char :=
  '#' :: (hex2 p.1 ++ hex2 p.2.1 ++ hex2 p.2.2)

/-- The per-cell color string of `generateDisplayHTML` (part_001 lines
406-408): `findClosestColor(r,g,b)` in color mode (palette hex literal,
or `rgb(r,g,b)` in full mode), else the raw `rgb(r,g,b)` string. -/
def colorStrOf (o : ConvOptions) (c : RGB) : List Char :=
  if o.colorMode = ColorMode.color then
    match o.colorPalette with
    | none => rgbString c
    | some pal => hexString (findClosestColor (some pal) c.1 c.2.1 c.2.2)
  else rgbString c

/-- The literal `<span style="color:${col}">` (part_001 lines 412, 421,
429). -/
def spanOpen (col : List Char) : List Char :=
  '<' :: ("span style=\"color:".toList ++ col ++ ['"', '>'])

/-- The literal `</span>`. -/
def spanClose : List Char := '<' :: ("/span".toList ++ ['>'])

/-- Emission of a pending span: `if (currentSpan) html += '<span …>' +
currentSpan + '</span>'` (part_001 lines 411-415, 420-422, 428-430).
A `none` current color would interpolate as the string `null`; the runs
invariant keeps the color set whenever the span is non-empty. -/
def flushSpan (span col : List Char) : List Char :=
  if span = [] then [] else spanOpen col ++ span ++ spanClose

/-- The per-row loop of `generateDisplayHTML` (part_001 lines 397-432):
runs of non-blank cells with identical color strings are coalesced into
one span; blanks flush the pending span and emit a bare space; each row
ends with `'\n'`. -/
def lineGo (o : ConvOptions) :
    List (Char × RGB) → List Char → Option (List Char) → List Char
  | [], span, col => flushSpan span (col.getD ("null".toList)) ++ ['\n']
  | (ch, c) :: rest, span, col =>
      let cs := colorStrOf o c
      if isBlankChar ch then
        flushSpan span (col.getD ("null".toList)) ++ ' ' :: lineGo o rest [] none
      else if col = some cs then
        lineGo o rest (span ++ escapeChar ch) col
      else
        flushSpan span (col.getD ("null".toList)) ++ lineGo o rest (escapeChar ch) (some cs)

/-- `generateDisplayHTML` (part_001 lines 389-436) over a glyph grid of
(glyph, color) cells. -/
def generateDisplayHTML (o : ConvOptions) (grid : List (List (Char × RGB))) :
    List Char :=
  (grid.map fun row => lineGo o row [] none).flatten

/-- `Array.join('\n')` on the (normalized) text lines. -/
def joinLines : List (List Char) → List Char
  | [] => []
  | [l] => l
  | l :: ls => l ++ '\n' :: joinLines ls

/-- The plain-text export of a grid (part_001 lines 314-318):
rows of glyphs, braille blanks normalized to spaces, joined by `'\n'`. -/
def textExport (grid : List (List (Char × RGB))) : List Char :=
  joinLines (grid.map fun row => row.map fun cl => normalizeChar cl.1)

/-- Tag stripper for the plain-text projection of the markup: drops
every maximal `<…>` segment (the Boolean is the inside-a-tag state). -/
def stripTagsGo : Bool → List Char → List Char
  | _, [] => []
  | true, c :: rest =>
      if c = '>' then stripTagsGo false rest else stripTagsGo true rest
  | false, c :: rest =>
      if c = '<' then stripTagsGo true rest else c :: stripTagsGo false rest

/-- Entity decoder undoing `escapeHTML` (greedy, leftmost): the five
entities produced by the escape map; any other character passes
through. -/
def unescapeHTML : List Char → List Char
  | [] => []
  | c :: rest =>
      if c = '&' then
        if rest.take 4 = "amp;".toList then '&' :: unescapeHTML (rest.drop 4)
        else if rest.take 3 = "lt;".toList then '<' :: unescapeHTML (rest.drop 3)
        else if rest.take 3 = "gt;".toList then '>' :: unescapeHTML (rest.drop 3)
        else if rest.take 5 = "quot;".toList then '"' :: unescapeHTML (rest.drop 5)
        else if rest.take 5 = "#039;".toList then '\'' :: unescapeHTML (rest.drop 5)
        else c :: unescapeHTML rest
      else c :: unescapeHTML rest
termination_by s => s.length
decreasing_by all_goals (simp; try omega)

/-- The claim's plain-text projection of the colored markup: strip the
style spans, then undo the HTML escaping. -/
def projectText (s : List Char) : List Char :=
  unescapeHTML (stripTagsGo false s)

/-! ## Claim C9: frame-cache reuse and down-sampling (renderer.js 1453-1478) -/

/-- The cache-reuse decision (renderer.js lines 1454-1459 and the
`else` branch at 1537-1540): the cache is used iff it exists (non-empty
frame list) and `cachedFPS >= requestedFPS`; otherwise the renderer
falls through to fresh extraction (`throw new Error('Cache invalid…')`). -/
def usesFrameCache (hasCache : Bool) (cachedFPS requestedFPS : ℚ) : Bool :=
  hasCache && decide (requestedFPS ≤ cachedFPS)

/-- The resampling loop (renderer.js lines 1468-1471):
`for (i = 0; i < targetCount && i*interval < frames.length; i++)
   push frames[Math.floor(i*interval)]`.
The countdown argument is `targetCount − i`. -/
def resampleGo {α : Type} [Inhabited α] (frames : List α) (interval : ℚ) :
    ℕ → ℕ → List α
  | _, 0 => []
  | i, fuel + 1 =>
      if (i : ℚ) * interval < (frames.length : ℚ) then
        frames.getD (⌊(i : ℚ) * interval⌋).toNat default ::
          resampleGo frames interval (i + 1) fuel
      else []

/-- Cache-path frame selection (renderer.js lines 1462-1477): when the
cached rate equals the requested rate the cached frames are used as-is;
otherwise `interval = cachedFPS / requestedFPS`,
`targetCount = Math.ceil(duration · requestedFPS)` and the resampling
loop picks `frames[⌊i·interval⌋]`. -/
def framesFromCache {α : Type} [Inhabited α] (frames : List α)
    (cachedFPS requestedFPS duration : ℚ) : List α :=
  if cachedFPS = requestedFPS then frames
  else resampleGo frames (cachedFPS / requestedFPS) 0 (⌈duration * requestedFPS⌉.toNat)



/-! ## JS integer helpers for the GIF encoder

`Int32Array` stores apply ToInt32 (wrap into `[-2^31, 2^31)` after
truncation toward zero); `>>`/`<<` are arithmetic shifts on the wrapped
value. -/

/-- ToInt32 of an integer: wrap into `[-2^31, 2^31)`. -/
def toInt32 (z : ℤ) : ℤ := (z + 2 ^ 31) % 2 ^ 32 - 2 ^ 31

/-- Truncation toward zero of a rational (JS ToInt32 on a finite float,
before wrapping; `Int` division truncates toward zero). -/
def ratTrunc (q : ℚ) : ℤ := q.num / (q.den : ℤ)

/-- JS ToInt32 of a finite float. -/
def jsToInt32 (q : ℚ) : ℤ := toInt32 (ratTrunc q)

/-- JS `>>`: arithmetic shift right of the ToInt32'd value
(floor division by `2^s`). -/
def jsShr (q : ℚ) (s : ℕ) : ℤ := Int.fdiv (jsToInt32 q) (2 ^ s)

/-! ## NeuQuant (part_001 lines 1050-1369)

The network samples are JS `Float64Array`s, modelled by exact `ℚ`
lanes; `freq`, `bias`, `radpower` and `netindex` are `Int32Array`s,
modelled by `ℤ` arrays with `toInt32` applied at each store.  Fixed
parameters: `netsize = 256`, `netbiasshift = 4`, `intbiasshift = 16`,
`gammashift = betashift = 10`, `ncycles = 100`, `initalpha = 1024`,
`initradius = 2048`, `radiusdec = 30`, `radbias = 256`,
`alpharadbias = 2^18`, primes 499/491/487/503,
`minpicturebytes = 3·503`. -/

/-- One network sample `[r, g, b, index]`. -/
structure NQEntry where
  r : ℚ
  g : ℚ
  b : ℚ
  idx : ℚ
deriving Inhabited

/-- Network initialization (constructor lines 1094-1103):
`(i << 12) / 256` in each color lane (exact: `16·i`). -/
def nqInitNetwork : Array NQEntry :=
  ((List.range 256).map fun i =>
    ⟨((i : ℚ) * 4096) / 256, ((i : ℚ) * 4096) / 256, ((i : ℚ) * 4096) / 256, 0⟩).toArray

/-- `freq` initialization: `intbias / netsize = 256`. -/
def nqInitFreq : Array ℤ := Array.mkArray 256 (65536 / 256)

/-- Accumulator of the `contest` scan (lines 1238-1268). -/
structure ContestAcc where
  freq : Array ℤ
  bias : Array ℤ
  bestd : ℚ
  bestbiasd : ℚ
  bestpos : ℤ
  bestbiaspos : ℤ

/-- One iteration of `contest`'s scan over the 256 samples. -/
def contestStep (network : Array NQEntry) (r g b : ℚ) (acc : ContestAcc) (i : ℕ) :
    ContestAcc :=
  let n := network.getD i default
  let dist := |n.r - r| + |n.g - g| + |n.b - b|
  let best := if dist < acc.bestd then ((dist, (i : ℤ))) else (acc.bestd, acc.bestpos)
  let biasdist := dist - (((Int.fdiv (acc.bias.getD i 0) (2 ^ 12)) : ℤ) : ℚ)
  let bestbias :=
    if biasdist < acc.bestbiasd then ((biasdist, (i : ℤ)))
    else (acc.bestbiasd, acc.bestbiaspos)
  let betafreq := Int.fdiv (acc.freq.getD i 0) (2 ^ 10)
  let freq := acc.freq.setD i (toInt32 (acc.freq.getD i 0 - betafreq))
  let bias := acc.bias.setD i (toInt32 (acc.bias.getD i 0 + toInt32 (betafreq * 2 ^ 10)))
  ⟨freq, bias, best.1, bestbias.1, best.2, bestbias.2⟩

/-- `contest(r,g,b)` (lines 1238-1268): scan all samples tracking the
minimum-distance and minimum-bias-adjusted-distance positions, decay
`freq`, raise `bias`, then boost the winner (`freq += beta = 64`,
`bias -= betagamma = 65536`); returns the updated arrays and
`bestbiaspos`. -/
def contest (network : Array NQEntry) (freq bias : Array ℤ) (r g b : ℚ) :
    Array ℤ × Array ℤ × ℤ :=
  let acc0 : ContestAcc := ⟨freq, bias, 2147483647, 2147483647, -1, -1⟩
  let acc := (List.range 256).foldl (contestStep network r g b) acc0
  let bp := acc.bestpos.toNat
  let freq := acc.freq.setD bp (toInt32 (acc.freq.getD bp 0 + 64))
  let bias := acc.bias.setD bp (toInt32 (acc.bias.getD bp 0 - 65536))
  (freq, bias, acc.bestbiaspos)

/-- `altersingle(alpha, i, r, g, b)` (lines 1270-1275). -/
def altersingle (alpha : ℚ) (i : ℕ) (r g b : ℚ) (network : Array NQEntry) :
    Array NQEntry :=
  let n := network.getD i default
  network.setD i
    ⟨n.r - (alpha * (n.r - r)) / 1024, n.g - (alpha * (n.g - g)) / 1024,
      n.b - (alpha * (n.b - b)) / 1024, n.idx⟩

/-- One neighbor update of `alterneigh`. -/
def neighUpdate (a : ℚ) (r g b : ℚ) (network : Array NQEntry) (idx : ℕ) :
    Array NQEntry :=
  let n := network.getD idx default
  network.setD idx
    ⟨n.r - (a * (n.r - r)) / 262144, n.g - (a * (n.g - g)) / 262144,
      n.b - (a * (n.b - b)) / 262144, n.idx⟩

/-- The `while (j < hi || k > lo)` walk of `alterneigh` (lines
1285-1301); the fuel (≥ 2·netsize per call) only bounds the loop, which
advances `j` or `k` every iteration. -/
def alterneighGo (radpower : Array ℤ) (r g b : ℚ) (hi lo : ℤ) :
    ℕ → ℤ → ℤ → ℕ → Array NQEntry → Array NQEntry
  | 0, _, _, _, network => network
  | fuel + 1, j, k, m, network =>
      if j < hi ∨ k > lo then
        let a : ℚ := (radpower.getD m 0 : ℤ)
        let network := if j < hi then neighUpdate a r g b network j.toNat else network
        let j := if j < hi then j + 1 else j
        let network := if k > lo then neighUpdate a r g b network k.toNat else network
        let k := if k > lo then k - 1 else k
        alterneighGo radpower r g b hi lo fuel j k (m + 1) network
      else network

/-- `alterneigh(rad, i, r, g, b)` (lines 1277-1302). -/
def alterneigh (radpower : Array ℤ) (rad : ℤ) (i : ℕ) (r g b : ℚ)
    (network : Array NQEntry) : Array NQEntry :=
  let lo := max ((i : ℤ) - rad) (-1)
  let hi := min ((i : ℤ) + rad) 256
  alterneighGo radpower r g b hi lo 600 ((i : ℤ) + 1) ((i : ℤ) - 1) 1 network

/-- The `radpower` schedule refill (lines 1186-1188 and 1231-1233):
`radpower[i] = alpha · ((rad² − i²) · radbias) / rad²`, truncated on the
`Int32Array` store. -/
def radpowerFill (alpha : ℚ) (rad : ℤ) (rp : Array ℤ) : Array ℤ :=
  (List.range rad.toNat).foldl
    (fun rp i =>
      rp.setD i (toInt32 (ratTrunc
        (alpha * ((((rad : ℚ) * rad - (i : ℚ) * i) * 256) / ((rad : ℚ) * rad))))))
    rp

/-- The mutable state of `learn`'s sampling loop. -/
structure LearnAcc where
  network : Array NQEntry
  freq : Array ℤ
  bias : Array ℤ
  radpower : Array ℤ
  alpha : ℚ
  radius : ℚ
  rad : ℤ
  pix : ℕ
  i : ℕ
  delta : ℤ

/-- One iteration of `learn`'s sampling loop (lines 1205-1235). -/
def learnStep (pixels : List ℤ) (lengthcount step : ℕ) (alphadec : ℚ)
    (acc : LearnAcc) : LearnAcc :=
  let r : ℚ := (((pixels.getD acc.pix 0) % 256) * 16 : ℤ)
  let g : ℚ := (((pixels.getD (acc.pix + 1) 0) % 256) * 16 : ℤ)
  let b : ℚ := (((pixels.getD (acc.pix + 2) 0) % 256) * 16 : ℤ)
  let res := contest acc.network acc.freq acc.bias r g b
  let j := res.2.2.toNat
  let network := altersingle acc.alpha j r g b acc.network
  let network :=
    if acc.rad ≠ 0 then alterneigh acc.radpower acc.rad j r g b network else network
  let pix := acc.pix + step
  let pix := if pix ≥ lengthcount then pix - lengthcount else pix
  let i := acc.i + 1
  let delta := if acc.delta = 0 then 1 else acc.delta
  if (i : ℤ) % delta = 0 then
    let alpha := acc.alpha - acc.alpha / alphadec
    let radius := acc.radius - acc.radius / 30
    let rad := jsShr radius 6
    let rad := if rad ≤ 1 then 0 else rad
    let radpower := radpowerFill alpha rad acc.radpower
    ⟨network, res.1, res.2.1, radpower, alpha, radius, rad, pix, i, delta⟩
  else
    ⟨network, res.1, res.2.1, acc.radpower, acc.alpha, acc.radius, acc.rad, pix, i, delta⟩

/-- The sampling loop, driven by a structural fuel equal to the
iteration count `⌈samplepixels⌉`. -/
def learnGo (pixels : List ℤ) (lengthcount step : ℕ) (alphadec : ℚ) :
    ℕ → LearnAcc → LearnAcc
  | 0, acc => acc
  | fuel + 1, acc =>
      learnGo pixels lengthcount step alphadec fuel
        (learnStep pixels lengthcount step alphadec acc)

/-- `learn()` (lines 1172-1236). -/
def nqLearn (pixels : List ℤ) (samplefac0 : ℕ) :
    Array NQEntry × Array ℤ × Array ℤ :=
  let lengthcount := pixels.length
  let samplefac := if lengthcount < 3 * 503 then 1 else samplefac0
  let alphadec : ℚ := 30 + ((samplefac : ℚ) - 1) / 3
  let samplepixels : ℚ := (lengthcount : ℚ) / (3 * (samplefac : ℚ))
  let delta := ratTrunc (samplepixels / 100)
  let alpha : ℚ := 1024
  let radius : ℚ := 2048
  let rad := jsShr radius 6
  let rad := if rad ≤ 1 then 0 else rad
  let radpower := radpowerFill alpha rad (Array.mkArray 32 0)
  let step :=
    if lengthcount < 3 * 503 then 3
    else if lengthcount % 499 ≠ 0 then 3 * 499
    else if lengthcount % 491 ≠ 0 then 3 * 491
    else if lengthcount % 487 ≠ 0 then 3 * 487
    else 3 * 503
  let fuel := (⌈samplepixels⌉).toNat
  let acc0 : LearnAcc :=
    ⟨nqInitNetwork, nqInitFreq, Array.mkArray 256 0, radpower, alpha, radius, rad,
      0, 0, delta⟩
  let acc := learnGo pixels lengthcount step alphadec fuel acc0
  (acc.network, acc.freq, acc.bias)

/-- `unbiasnet()` (lines 1304-1311): shift each lane right by
`netbiasshift` (a JS `>>=`, i.e. ToInt32 then arithmetic shift) and
record the position in the index lane. -/
def unbiasnet (network : Array NQEntry) : Array NQEntry :=
  (List.range 256).foldl
    (fun net i =>
      let n := net.getD i default
      net.setD i ⟨((jsShr n.r 4 : ℤ) : ℚ), ((jsShr n.g 4 : ℤ) : ℚ),
        ((jsShr n.b 4 : ℤ) : ℚ), (i : ℚ)⟩)
    network

/-- Fill `netindex[a..b-1] := v`. -/
def netindexFill (a b v : ℤ) (ni : Array ℤ) : Array ℤ :=
  (List.range (b - a).toNat).foldl (fun ni k => ni.setD (a + k).toNat v) ni

/-- Accumulator of `inxbuild`. -/
structure InxAcc where
  network : Array NQEntry
  netindex : Array ℤ
  previouscol : ℚ
  startpos : ℤ

/-- One iteration of `inxbuild`'s selection sort (lines 1135-1164):
find the sample with the smallest green in `i..255`, swap it into `i`,
and extend `netindex` when a new green value starts. -/
def inxStep (acc : InxAcc) (i : ℕ) : InxAcc :=
  let pick :=
    (List.range (256 - (i + 1))).foldl
      (fun (sp : ℕ × ℚ) d =>
        let j := i + 1 + d
        let q := acc.network.getD j default
        if q.g < sp.2 then (j, q.g) else sp)
      (i, (acc.network.getD i default).g)
  let smallpos := pick.1
  let smallval := pick.2
  let p := acc.network.getD i default
  let q := acc.network.getD smallpos default
  let network :=
    if i ≠ smallpos then (acc.network.setD i q).setD smallpos p else acc.network
  if smallval ≠ acc.previouscol then
    let prev := ratTrunc acc.previouscol
    let sv := ratTrunc smallval
    let netindex := acc.netindex.setD prev.toNat (Int.fdiv (acc.startpos + i) 2)
    let netindex := netindexFill (prev + 1) sv (i : ℤ) netindex
    ⟨network, netindex, smallval, (i : ℤ)⟩
  else
    ⟨network, acc.netindex, acc.previouscol, acc.startpos⟩

/-- `inxbuild()` (lines 1131-1170). -/
def inxbuild (network : Array NQEntry) : Array NQEntry × Array ℤ :=
  let acc :=
    (List.range 256).foldl inxStep ⟨network, Array.mkArray 256 0, 0, 0⟩
  let prev := ratTrunc acc.previouscol
  let netindex := acc.netindex.setD prev.toNat (Int.fdiv (acc.startpos + 255) 2)
  let netindex := netindexFill (prev + 1) 256 255 netindex
  (acc.network, netindex)

/-- `colorMap()` (lines 1113-1129): emit `R G B` per sample in
original-index order (768 values). -/
def colorMap (network : Array NQEntry) : List ℚ :=
  let index :=
    (List.range 256).foldl
      (fun ix i => ix.setD (ratTrunc (network.getD i default).idx).toNat i)
      (Array.mkArray 256 0)
  (List.range 256).flatMap fun i =>
    let n := network.getD (index.getD i 0) default
    [n.r, n.g, n.b]

/-- The bidirectional walk of `map(r,g,b)` (lines 1319-1365); the fuel
(≥ 2·netsize + 2) only bounds the loop, which shrinks
`(256 − i) + (j + 1)` every iteration. -/
def nqMapGo (network : Array NQEntry) (r g b : ℚ) :
    ℕ → ℤ → ℤ → ℚ → ℚ → ℚ
  | 0, _, _, _, best => best
  | fuel + 1, i, j, bestd, best =>
      if i < 256 ∨ j ≥ 0 then
        let fwd :=
          if i < 256 then
            let n := network.getD i.toNat default
            let dist := n.g - g
            if dist ≥ bestd then ((256 : ℤ), bestd, best)
            else
              let dist := |dist| + |n.r - r|
              if dist < bestd then
                let dist := dist + |n.b - b|
                if dist < bestd then (i + 1, dist, n.idx) else (i + 1, bestd, best)
              else (i + 1, bestd, best)
          else (i, bestd, best)
        let bwd :=
          if j ≥ 0 then
            let n := network.getD j.toNat default
            let dist := g - n.g
            if dist ≥ fwd.2.1 then ((-1 : ℤ), fwd.2.1, fwd.2.2)
            else
              let dist := |dist| + |n.r - r|
              if dist < fwd.2.1 then
                let dist := dist + |n.b - b|
                if dist < fwd.2.1 then (j - 1, dist, n.idx)
                else (j - 1, fwd.2.1, fwd.2.2)
              else (j - 1, fwd.2.1, fwd.2.2)
          else (j, fwd.2.1, fwd.2.2)
        nqMapGo network r g b fuel fwd.1 bwd.1 bwd.2.1 bwd.2.2
      else best

/-- `map(r,g,b)` (lines 1313-1368): nearest original index, walking
outward from `netindex[g]`. -/
def nqMap (network : Array NQEntry) (netindex : Array ℤ) (r g b : ℤ) : ℤ :=
  let i := netindex.getD g.toNat 0
  ratTrunc (nqMapGo network (r : ℚ) (g : ℚ) (b : ℚ) 600 i (i - 1) 1000 (-1))

/-- `process()` (lines 1106-1111): learn, unbias, build the index,
return the color map together with the trained network and index. -/
def nqProcess (pixels : List ℤ) (samplefac : ℕ) :
    Array NQEntry × Array ℤ × List ℚ :=
  let learned := nqLearn pixels samplefac
  let network := unbiasnet learned.1
  let built := inxbuild network
  (built.1, built.2, colorMap built.1)

/-! ## LZWEncoder (part_001 lines 1374-1523)

`BITS = 12`, `HSIZE = 5003`, `hshift = 8 − ⌈log₂ 5003⌉ = 4` (the
doubling loop runs 4 times from 5003 to 80048).  The output stream is
returned as this encoder's own byte list (the source writes the same
bytes into the shared `ByteArray`, append-only). -/

/-- The `masks` table (lines 1392-1396). -/
def lzwMasks : List ℤ :=
  [0x0000, 0x0001, 0x0003, 0x0007, 0x000F, 0x001F, 0x003F, 0x007F, 0x00FF,
    0x01FF, 0x03FF, 0x07FF, 0x0FFF, 0x1FFF, 0x3FFF, 0x7FFF, 0xFFFF]

/-- LZW encoder state (`htab`/`codetab` of length 5003, the rolling bit
accumulator, the 254-byte sub-block buffer `accum`, and the emitted
bytes). -/
structure LZWSt where
  htab : Array ℤ
  codetab : Array ℤ
  free_ent : ℤ
  g_bits : ℕ
  g_maxcode : ℤ
  cur_accum : ℤ
  cur_bits : ℕ
  accum : List ℤ
  out : List ℤ

/-- `flush_char` (lines 1510-1516): emit the buffered sub-block with its
length prefix. -/
def lzwFlushChar (st : LZWSt) : LZWSt :=
  if st.accum.length > 0 then
    { st with out := st.out ++ [(st.accum.length : ℤ)] ++ st.accum, accum := [] }
  else st

/-- The `while (cur_bits >= 8)` byte-emission loop of `output`
(lines 1495-1499): `char_out(cur_accum & 0xff)`, shift, repeat.  The
structural fuel (`cur_bits` itself suffices, each pass consuming 8
bits) only bounds the loop. -/
def lzwEmitLoopGo : ℕ → LZWSt → LZWSt
  | 0, st => st
  | fuel + 1, st =>
      if st.cur_bits ≥ 8 then
        lzwEmitLoopGo fuel { st with
          accum := st.accum ++ [st.cur_accum % 256]
          cur_accum := Int.fdiv st.cur_accum 256
          cur_bits := st.cur_bits - 8 }
      else st

/-- The byte-emission loop entered with its fuel. -/
def lzwEmitLoop (st : LZWSt) : LZWSt := lzwEmitLoopGo st.cur_bits st

/-- `output(code, bits)` (lines 1484-1504): mask the accumulator, merge
the code LSB-first, emit full bytes, and flush a full 254-byte
sub-block. -/
def lzwOutput (code : ℤ) (bits : ℕ) (st : LZWSt) : LZWSt :=
  let cur_accum := Int.land st.cur_accum (lzwMasks.getD st.cur_bits 0)
  let cur_accum :=
    if st.cur_bits > 0 then Int.lor cur_accum (toInt32 (code * 2 ^ st.cur_bits))
    else code
  let st := { st with cur_accum := cur_accum, cur_bits := st.cur_bits + bits }
  let st := lzwEmitLoop st
  if st.accum.length ≥ 254 then lzwFlushChar st else st

/-- The collision probe (lines 1443-1452): step by `disp` (1 when the
initial slot is 0) until the entry or an empty slot is found.  Returns
(found?, slot, code).  The fuel (5003) only bounds the loop: the table
keeps at most 4094 live entries, so an empty slot is always reached. -/
def lzwProbeGo (htab codetab : Array ℤ) (fcode : ℤ) (disp : ℕ) :
    ℕ → ℕ → Bool × ℕ × ℤ
  | 0, i => (false, i, 0)
  | fuel + 1, i =>
      let i := if (i : ℤ) - disp < 0 then ((i : ℤ) - disp + 5003).toNat else i - disp
      if htab.getD i (-1) = fcode then (true, i, codetab.getD i 0)
      else if htab.getD i (-1) ≥ 0 then lzwProbeGo htab codetab fcode disp fuel i
      else (false, i, 0)

/-- The main `compress` loop body (lines 1435-1478), one step per
remaining pixel `c`; `ent` is the current prefix code. -/
def lzwGo (g_init_bits : ℕ) (ClearCode : ℤ) :
    List ℤ → ℤ → LZWSt → LZWSt × ℤ
  | [], ent, st => (st, ent)
  | c :: rest, ent, st =>
      let fcode := c * 2 ^ 12 + ent
      let i0 := (Int.xor (c * 2 ^ 4) ent).toNat
      if st.htab.getD i0 (-1) = fcode then
        lzwGo g_init_bits ClearCode rest (st.codetab.getD i0 0) st
      else
        let probe :=
          if st.htab.getD i0 (-1) ≥ 0 then
            let disp := if i0 = 0 then 1 else 5003 - i0
            lzwProbeGo st.htab st.codetab fcode disp 5003 i0
          else (false, i0, 0)
        if probe.1 then
          lzwGo g_init_bits ClearCode rest probe.2.2 st
        else
          let slot := probe.2.1
          let st := lzwOutput ent st.g_bits st
          let st : LZWSt :=
            if st.free_ent < 2 ^ 12 then
              { st with
                  codetab := st.codetab.setD slot st.free_ent
                  htab := st.htab.setD slot fcode
                  free_ent := st.free_ent + 1 }
            else
              let st := { st with
                  htab := Array.mkArray 5003 (-1)
                  free_ent := ClearCode + 2 }
              let st := lzwOutput ClearCode st.g_bits st
              { st with g_bits := g_init_bits, g_maxcode := 2 ^ g_init_bits - 1 }
          let st : LZWSt :=
            if st.free_ent > st.g_maxcode then
              let gb := st.g_bits + 1
              let gb := if gb > 12 then 12 else gb
              { st with g_bits := gb, g_maxcode := 2 ^ gb - 1 }
            else st
          lzwGo g_init_bits ClearCode rest c st

/-- `encode(outs)` (lines 1399-1405) with `compress` (1407-1482):
initial code-size byte, CLEAR, the main loop, the final prefix and EOF
codes, then the zero-length terminator.  Note the source never calls
`flush_char` at the end of `compress` (it is only reached from `output`
when a sub-block fills at 254 bytes), so bits and bytes still buffered
after the EOF code are dropped. -/
def lzwEncode (w h : ℕ) (pixels : List ℤ) (colorDepth : ℕ) : List ℤ :=
  let initCodeSize := max 2 colorDepth
  let init_bits := initCodeSize + 1
  let ClearCode : ℤ := 2 ^ (init_bits - 1)
  let EOFCode := ClearCode + 1
  let stream := (List.range (w * h)).map fun k => (pixels.getD k 0) % 256
  let ent : ℤ :=
    match stream with
    | [] => -1
    | c :: _ => c
  let st : LZWSt :=
    ⟨Array.mkArray 5003 (-1), Array.mkArray 5003 0, ClearCode + 2, init_bits,
      2 ^ init_bits - 1, 0, 0, [], []⟩
  let st := lzwOutput ClearCode st.g_bits st
  let res := lzwGo init_bits ClearCode (stream.drop 1) ent st
  let st := lzwOutput res.2 res.1.g_bits res.1
  let st := lzwOutput EOFCode st.g_bits st
  [(initCodeSize : ℤ)] ++ st.out ++ [0]

/-! ## GIFEncoder (part_001 lines 762-1021)

The `ByteArray` output is an append-only byte list; `getData` coerces
each pushed value through the `Uint8Array` wrap.  All pushed values are
integers (the palette lanes are integers after `unbiasnet`'s `>>=`), so
the palette's float-to-byte conversion is applied at the emission site
(`writePaletteBytes`) instead of at `getData`, with identical bytes.
`colorDepth = 8` and `palSize = 7` throughout (constructor and
`analyzePixels`). -/

/-- GIFEncoder state (constructor lines 763-781; the `repeat` field is
named `repeatCount` here).  `this.image` is only ever read back by
`getImagePixels` inside the same `addFrame` call, so it is not carried. -/
structure GifState where
  width : ℕ
  height : ℕ
  transparent : Option ℤ := none
  transIndex : ℤ := 0
  repeatCount : ℤ := 0
  delay : ℤ := 0
  dispose : ℤ := -1
  firstFrame : Bool := true
  sample : ℕ := 10
  usedEntry : Array Bool := Array.mkArray 0 false
  colorTab : Option (List ℚ) := none
  network : Array NQEntry := Array.mkArray 0 default
  netindex : Array ℤ := Array.mkArray 0 0
  indexedPixels : List ℤ := []
  out : List ℤ := []

/-- Fresh encoder (constructor defaults; `setQuality` clamps the sample
factor below at 1). -/
def initGifState (w h quality : ℕ) : GifState :=
  { width := w, height := h, sample := if quality < 1 then 1 else quality }

/-- `getImagePixels()` (lines 840-856): copy only the R, G, B lanes of
the RGBA frame buffer, row-major. -/
def getImagePixels (w h : ℕ) (data : List ℤ) : List ℤ :=
  (List.range h).flatMap fun i =>
    (List.range w).flatMap fun j =>
      [data.getD (i * w * 4 + j * 4) 0, data.getD (i * w * 4 + j * 4 + 1) 0,
        data.getD (i * w * 4 + j * 4 + 2) 0]

/-- `this.usedEntry[index] = true` on a growable JS array (absent
entries read back as falsy). -/
def usedSet (a : Array Bool) (i : ℕ) : Array Bool :=
  let a := if i < a.size then a else a ++ Array.mkArray (i + 1 - a.size) false
  a.setD i true

/-- `findClosest(c)` (lines 889-913).  Note the source computes
`index = i / 3` after already advancing `i` past the entry, so entry `k`
is reported as index `k + 1`; this is modelled as-is. -/
def findClosest (colorTab : Option (List ℚ)) (used : Array Bool) (c : ℤ) : ℤ :=
  match colorTab with
  | none => -1
  | some tab =>
      let r := (Int.fdiv c 65536) % 256
      let g := (Int.fdiv c 256) % 256
      let b := c % 256
      let res :=
        (List.range (tab.length / 3)).foldl
          (fun (best : ℤ × ℤ) k =>
            let dr := r - (jsToInt32 (tab.getD (3 * k) 0)) % 256
            let dg := g - (jsToInt32 (tab.getD (3 * k + 1) 0)) % 256
            let db := b - (jsToInt32 (tab.getD (3 * k + 2) 0)) % 256
            let d := dr * dr + dg * dg + db * db
            if used.getD (k + 1) false ∧ d < best.1 then (d, (k : ℤ) + 1) else best)
          (16777216, 0)
      res.2

/-- `analyzePixels()` (lines 858-887): quantize with a fresh NeuQuant,
map every pixel to its palette index (marking `usedEntry`), and find
the transparent index if a transparent color is set. -/
def analyzePixels (st : GifState) (pixels3 : List ℤ) : GifState :=
  let nPix := pixels3.length / 3
  let pr := nqProcess pixels3 st.sample
  let mapres :=
    (List.range nPix).foldl
      (fun (acc : Array Bool × List ℤ) i =>
        let index := nqMap pr.1 pr.2.1 ((pixels3.getD (3 * i) 0) % 256)
          ((pixels3.getD (3 * i + 1) 0) % 256) ((pixels3.getD (3 * i + 2) 0) % 256)
        (usedSet acc.1 index.toNat, acc.2 ++ [index % 256]))
      (st.usedEntry, [])
  let transIndex :=
    match st.transparent with
    | none => st.transIndex
    | some c => findClosest (some pr.2.2) mapres.1 c
  { st with
      network := pr.1
      netindex := pr.2.1
      colorTab := some pr.2.2
      indexedPixels := mapres.2
      usedEntry := mapres.1
      transIndex := transIndex }

/-- `writeShort` (lines 1011-1014): little-endian 16-bit. -/
def writeShortBytes (v : ℤ) : List ℤ := [v % 256, Int.fdiv v 256 % 256]

/-- `writeString` (lines 1016-1019): char codes. -/
def asciiBytes (s : String) : List ℤ := s.toList.map fun c => (c.toNat : ℤ)

/-- `writeLSD()` (lines 915-933): header, logical screen size, packed
field `0x80 | 0x70 | 0x00 | palSize` (disjoint bit masks, `palSize = 7`),
background index, aspect ratio. -/
def writeLSDBytes (w h : ℕ) : List ℤ :=
  asciiBytes "GIF89a" ++ writeShortBytes w ++ writeShortBytes h ++
    [0x80 + 0x70 + 7] ++ [0] ++ [0]

/-- `writePalette()` (lines 935-941): the color table padded with zeros
to `3 · 256` bytes. -/
def writePaletteBytes (colorTab : List ℚ) : List ℤ :=
  colorTab.map jsToInt32 ++ List.replicate (3 * 256 - colorTab.length) 0

/-- `writeNetscapeExt()` (lines 943-952). -/
def writeNetscapeBytes (repeatCount : ℤ) : List ℤ :=
  [0x21, 0xff, 11] ++ asciiBytes "NETSCAPE2.0" ++ [3, 1] ++
    writeShortBytes repeatCount ++ [0]

/-- `writeGraphicCtrlExt()` (lines 954-983): packed field
`(disp << 2) | transp` (disjoint bits), delay, transparent index. -/
def writeGraphicCtrlBytes (st : GifState) : List ℤ :=
  let td : ℤ × ℤ :=
    match st.transparent with
    | none => (0, 0)
    | some _ => (1, 2)
  let disp := if st.dispose ≥ 0 then Int.land st.dispose 7 else td.2
  [0x21, 0xf9, 4] ++ [disp * 4 + td.1] ++ writeShortBytes st.delay ++
    [st.transIndex] ++ [0]

/-- `writeImageDesc()` (lines 985-1004): descriptor at (0,0,w,h); frames
after the first carry a local color table (`0x80 | palSize`). -/
def writeImageDescBytes (st : GifState) : List ℤ :=
  [0x2c] ++ writeShortBytes 0 ++ writeShortBytes 0 ++ writeShortBytes st.width ++
    writeShortBytes st.height ++ [if st.firstFrame then 0 else 0x80 + 7]

/-- `addFrame(imageData)` (lines 803-825): quantize and index the frame,
then emit (on the first frame) LSD + global palette + NETSCAPE loop
extension, then GCE, image descriptor, local palette for later frames,
and the LZW-compressed pixel block. -/
def addFrameBytes (st2 : GifState) : List ℤ :=
  (if st2.firstFrame then
      writeLSDBytes st2.width st2.height ++ writePaletteBytes (st2.colorTab.getD []) ++
        (if st2.repeatCount ≥ 0 then writeNetscapeBytes st2.repeatCount else [])
    else []) ++
    writeGraphicCtrlBytes st2 ++ writeImageDescBytes st2 ++
    (if st2.firstFrame then [] else writePaletteBytes (st2.colorTab.getD [])) ++
    lzwEncode st2.width st2.height st2.indexedPixels 8

/-- `addFrame` proper: analyze, then append this frame's bytes. -/
def addFrame (st : GifState) (image : List ℤ) : GifState :=
  let st2 := analyzePixels st (getImagePixels st.width st.height image)
  { st2 with out := st2.out ++ addFrameBytes st2, firstFrame := false }

/-- `finish()` (lines 827-829): the trailer byte `0x3B`. -/
def gifFinish (st : GifState) : GifState := { st with out := st.out ++ [0x3b] }

/-- `getData()`'s per-value `Uint8Array` wrap of an integer write. -/
def byteOf (z : ℤ) : ℕ := (z % 256).toNat

/-- `stream().getData()`: the emitted bytes. -/
def gifData (st : GifState) : List ℕ := st.out.map byteOf

/-- A whole encoding run: `addFrame` per frame, then `finish`. -/
def gifEncode (w h quality : ℕ) (frames : List (List ℤ)) : List ℕ :=
  gifData (gifFinish (frames.foldl addFrame (initGifState w h quality)))

/-- The global color table produced for the first frame. -/
def firstFrameColorTab (w h quality : ℕ) (frame : List ℤ) : List ℚ :=
  (nqProcess (getImagePixels w h frame) (if quality < 1 then 1 else quality)).2.2

/-- The GIF sub-block layer of the decoder side, as the claim describes
it: each sub-block is a length byte (1-255) followed by that many data
bytes; a zero-length sub-block terminates the stream.  Concatenates the
data bytes (the repository contains no GIF-LZW decoder; this is the
claim's own decoding projection of the emitted packetization). -/
def subBlocksGo : ℕ → List ℤ → List ℤ
  | 0, _ => []
  | _, [] => []
  | fuel + 1, n :: rest =>
      if n ≤ 0 then []
      else rest.take n.toNat ++ subBlocksGo fuel (rest.drop n.toNat)

/-- Sub-block unpacking entered with its fuel (the list length bounds
the number of sub-blocks). -/
def subBlocksData (s : List ℤ) : List ℤ := subBlocksGo s.length s

/-! ## Claim C1: the identity configuration of the per-pixel transform -/

/-- C1 (counterexample): with `brightness = 100`, `contrast = 128` the
per-pixel transform is NOT the identity: the gray pixel `(100,100,100)`
maps to `(1498324/33405, …) ≈ (44.85, …)`.  The contrast factor at 128 is
`259·383/(255·131) ≈ 2.97`, not 1. -/
theorem adjustTriplet_contrast128_not_id :
    adjustTriplet 100 128 (100, 100, 100) ≠ (100, 100, 100) := by
  have h : adjustPixel 100 128 100 = 1498324 / 33405 := by
    unfold adjustPixel
    norm_num [min_def, max_def]
  simp only [adjustTriplet, h, Prod.mk.injEq, ne_eq]
  norm_num

/-- C1 (amended): the per-pixel transform (brightness scale, contrast
curve, clamp) is the identity on every 8-bit triplet for
`brightness = 100` and `contrast = 0` — the contrast factor
`259·(0+255)/(255·(259−0))` equals 1 — rather than at `contrast = 128`
as claimed. -/
theorem adjustTriplet_identity (r g b : ℚ)
    (hr0 : 0 ≤ r) (hr1 : r ≤ 255) (hg0 : 0 ≤ g) (hg1 : g ≤ 255)
    (hb0 : 0 ≤ b) (hb1 : b ≤ 255) :
    adjustTriplet 100 0 (r, g, b) = (r, g, b) := by
  have key : ∀ v : ℚ, 0 ≤ v → v ≤ 255 → adjustPixel 100 0 v = v := by
    intro v h0 h1
    unfold adjustPixel
    norm_num
    rw [min_eq_right h1, max_eq_right h0]
  simp [adjustTriplet, key r hr0 hr1, key g hg0 hg1, key b hb0 hb1]

/-- Witness for `adjustTriplet_identity` at the concrete pixel (10, 20, 30). -/
theorem adjustTriplet_identity_witness :
    (0 : ℚ) ≤ 10 ∧ (10 : ℚ) ≤ 255 ∧
      adjustTriplet 100 0 (10, 20, 30) = (10, 20, 30) :=
  ⟨by norm_num, by norm_num,
    adjustTriplet_identity 10 20 30 (by norm_num) (by norm_num) (by norm_num)
      (by norm_num) (by norm_num) (by norm_num)⟩

/-! ## Claim C5: contrast = 259 (division by zero in the contrast curve) -/

/-- C5: at `contrast = 259` the source evaluates the division by zero
instead of clamping or rejecting: the contrast factor becomes `+∞`
(`259·514 / +0`), and for the channel value 128 the result is
`∞ · 0 + 128 = NaN` — neither a clamped value in `[0, 255]` nor an
`invalid_config` error. -/
theorem adjustPixelJS_contrast259_nan :
    adjustPixelJS 100 259 128 = JSVal.nan := by
  norm_num [adjustPixelJS, JSVal.mul, JSVal.div, JSVal.add, JSVal.sub,
    JSVal.minJ, JSVal.maxJ]

/-! ## Claim C6: the glyph index is always in bounds -/

/-- C6: for every glyph set of length ≥ 2, every brightness value
(including values outside `[0, 255]`) and either invert setting, the
glyph index computed by `brightnessToChar` lies in `[0, |S|−1]`, so the
character lookup is in bounds and the glyph is defined. -/
theorem brightnessToCharIndex_in_bounds (o : ConvOptions) (Y : ℚ)
    (hS : 2 ≤ (getCharset o).length) :
    0 ≤ brightnessToCharIndex o Y ∧
      brightnessToCharIndex o Y ≤ ((getCharset o).length : ℤ) - 1 ∧
      ∃ c, (getCharset o)[(brightnessToCharIndex o Y).toNat]? = some c ∧
        brightnessToChar o Y = c := by
  have h0 : 0 ≤ brightnessToCharIndex o Y := by
    unfold brightnessToCharIndex
    exact le_max_left 0 _
  have h1 : brightnessToCharIndex o Y ≤ ((getCharset o).length : ℤ) - 1 := by
    unfold brightnessToCharIndex
    apply max_le
    · omega
    · exact min_le_left _ _
  have hlt : (brightnessToCharIndex o Y).toNat < (getCharset o).length := by
    omega
  refine ⟨h0, h1, (getCharset o).getD (brightnessToCharIndex o Y).toNat ' ', ?_, rfl⟩
  rw [List.getElem?_eq_getElem hlt, List.getD_eq_getElem _ _ hlt]

/-- Witness for `brightnessToCharIndex_in_bounds`: the default options
(10-glyph `standard` set) at the out-of-range brightness 300. -/
theorem brightnessToCharIndex_in_bounds_witness :
    2 ≤ (getCharset {}).length ∧
      (0 ≤ brightnessToCharIndex {} 300 ∧
        brightnessToCharIndex {} 300 ≤ ((getCharset {}).length : ℤ) - 1 ∧
        ∃ c, (getCharset {})[(brightnessToCharIndex {} 300).toNat]? = some c ∧
          brightnessToChar {} 300 = c) :=
  ⟨by decide, brightnessToCharIndex_in_bounds {} 300 (by decide)⟩

/-! ## Claim C4: grid dimensions -/

/-- C4: for every configuration with `W ≥ 1` and source of size
`w_src × h_src` with `w_src ≥ 1`, the produced glyph grid has exactly
`H = ⌊W · (h_src / w_src) · 0.5⌋` rows, each of exactly `W` columns. -/
theorem convertImageData_dims (o : ConvOptions) (pixels : List ℚ)
    (wsrc hsrc : ℕ) (hW : 1 ≤ o.width) (hw : 1 ≤ wsrc) :
    (convertImageData o pixels wsrc hsrc).length =
        (⌊(o.width : ℚ) * ((hsrc : ℚ) / (wsrc : ℚ)) * (1 / 2)⌋).toNat ∧
      ∀ row ∈ convertImageData o pixels wsrc hsrc, row.length = o.width := by
  constructor
  · simp [convertImageData, processPixels, convertHeight]
  · intro row hrow
    simp only [convertImageData, processPixels, List.mem_map] at hrow
    obtain ⟨y, _, rfl⟩ := hrow
    simp

/-- Witness for `convertImageData_dims`: width-4 config on a 4×4 source
(grid 2 rows × 4 columns). -/
theorem convertImageData_dims_witness :
    1 ≤ (ConvOptions.width { width := 4 }) ∧ 1 ≤ 4 ∧
      ((convertImageData { width := 4 } [] 4 4).length =
          (⌊((4 : ℕ) : ℚ) * (((4 : ℕ) : ℚ) / ((4 : ℕ) : ℚ)) * (1 / 2)⌋).toNat ∧
        ∀ row ∈ convertImageData { width := 4 } [] 4 4, row.length = 4) :=
  ⟨by decide, by decide, convertImageData_dims { width := 4 } [] 4 4 (by decide) (by decide)⟩

theorem closestGo_spec (r g b : ℤ) :
    ∀ (ps : List RGB) (best q : RGB),
      closestGo r g b ps best (some (dist2 r g b best)) = q →
      (∀ p ∈ ps, dist2 r g b q ≤ dist2 r g b p) ∧
        dist2 r g b q ≤ dist2 r g b best ∧
        ((q = best ∧ ∀ p ∈ ps, dist2 r g b best ≤ dist2 r g b p) ∨
          (∃ l₁ l₂, ps = l₁ ++ q :: l₂ ∧ dist2 r g b q < dist2 r g b best ∧
            ∀ p ∈ l₁, dist2 r g b q < dist2 r g b p)) := by
  intro ps
  induction ps with
  | nil =>
      intro best q hq
      simp only [closestGo] at hq
      subst hq
      exact ⟨by simp, le_refl _, Or.inl ⟨rfl, by simp⟩⟩
  | cons p rest ih =>
      intro best q hq
      by_cases hlt : dist2 r g b p < dist2 r g b best
      · rw [closestGo, if_pos hlt] at hq
        obtain ⟨hmin, hle, hcase⟩ := ih p q hq
        refine ⟨?_, le_of_lt (lt_of_le_of_lt hle hlt), ?_⟩
        · intro x hx
          rcases List.mem_cons.mp hx with h | h
          · exact h ▸ hle
          · exact hmin x h
        · rcases hcase with ⟨heq, hall⟩ | ⟨l₁, l₂, hdecomp, hlt', hstrict⟩
          · exact Or.inr ⟨[], rest, by simp [heq], by rw [heq]; exact hlt, by simp⟩
          · refine Or.inr ⟨p :: l₁, l₂, by simp [hdecomp], lt_trans hlt' hlt, ?_⟩
            intro x hx
            rcases List.mem_cons.mp hx with h | h
            · subst h; exact hlt'
            · exact hstrict x h
      · rw [closestGo, if_neg hlt] at hq
        push_neg at hlt
        obtain ⟨hmin, hle, hcase⟩ := ih best q hq
        refine ⟨?_, hle, ?_⟩
        · intro x hx
          rcases List.mem_cons.mp hx with h | h
          · exact h ▸ le_trans hle hlt
          · exact hmin x h
        · rcases hcase with ⟨heq, hall⟩ | ⟨l₁, l₂, hdecomp, hlt', hstrict⟩
          · refine Or.inl ⟨heq, ?_⟩
            intro x hx
            rcases List.mem_cons.mp hx with h | h
            · exact h ▸ hlt
            · exact hall x h
          · refine Or.inr ⟨p :: l₁, l₂, by simp [hdecomp], hlt', ?_⟩
            intro x hx
            rcases List.mem_cons.mp hx with h | h
            · exact h ▸ lt_of_lt_of_le hlt' hlt
            · exact hstrict x h

/-- C7: for every RGB triplet and non-empty palette, `findClosestColor`
returns a palette entry of minimal squared Euclidean distance, and every
entry strictly earlier in the palette (the prefix `l₁`) has strictly
greater distance — i.e. ties are resolved to the earliest index.  In
`full` mode (`none`) the raw triplet passes through unquantized. -/
theorem findClosestColor_spec (r g b : ℤ) (pal : List RGB) (hne : pal ≠ []) :
    findClosestColor none r g b = (r, g, b) ∧
      ∃ l₁ l₂,
        pal = l₁ ++ findClosestColor (some pal) r g b :: l₂ ∧
          (∀ p ∈ pal, dist2 r g b (findClosestColor (some pal) r g b) ≤ dist2 r g b p) ∧
          ∀ p ∈ l₁, dist2 r g b (findClosestColor (some pal) r g b) < dist2 r g b p := by
  refine ⟨rfl, ?_⟩
  obtain ⟨p0, rest, rfl⟩ := List.exists_cons_of_ne_nil hne
  have hstart :
      closestGo r g b rest p0 (some (dist2 r g b p0)) =
        findClosestColor (some (p0 :: rest)) r g b := by
    simp [findClosestColor, closestGo]
  obtain ⟨hmin, hle, hcase⟩ := closestGo_spec r g b rest p0 _ hstart
  rcases hcase with ⟨heq, hall⟩ | ⟨l₁, l₂, hdecomp, hlt', hstrict⟩
  · refine ⟨[], rest, by rw [heq]; rfl, ?_, by simp⟩
    intro x hx
    rcases List.mem_cons.mp hx with h | h
    · subst h; exact hle
    · exact hmin x h
  · refine ⟨p0 :: l₁, l₂, by conv_lhs => rw [hdecomp, ← List.cons_append]
    , ?_, ?_⟩
    · intro x hx
      rcases List.mem_cons.mp hx with h | h
      · subst h; exact le_of_lt hlt'
      · exact hmin x h
    · intro x hx
      rcases List.mem_cons.mp hx with h | h
      · subst h; exact hlt'
      · exact hstrict x h

theorem resampleGo_getD {α : Type} [Inhabited α] (frames : List α) (interval : ℚ)
    (hiv : 0 ≤ interval) :
    ∀ (fuel i0 k : ℕ), k < (resampleGo frames interval i0 fuel).length →
      (resampleGo frames interval i0 fuel).getD k default =
          frames.getD (⌊((i0 + k : ℕ) : ℚ) * interval⌋).toNat default ∧
        (⌊((i0 + k : ℕ) : ℚ) * interval⌋).toNat < frames.length := by
  intro fuel
  induction fuel with
  | zero => intro i0 k hk; simp [resampleGo] at hk
  | succ fuel ih =>
      intro i0 k hk
      by_cases hcond : (i0 : ℚ) * interval < (frames.length : ℚ)
      · rw [resampleGo, if_pos hcond] at hk ⊢
        cases k with
        | zero =>
            refine ⟨by simp, ?_⟩
            have hfl : ⌊(i0 : ℚ) * interval⌋ < (frames.length : ℤ) := by
              rw [Int.floor_lt]
              exact_mod_cast hcond
            have hnn : (0 : ℤ) ≤ ⌊(i0 : ℚ) * interval⌋ :=
              Int.floor_nonneg.mpr (mul_nonneg (by positivity) hiv)
            simp only [Nat.add_zero]
            omega
        | succ k =>
            simp only [List.length_cons, Nat.add_lt_add_iff_right] at hk
            have h := ih (i0 + 1) k hk
            have harg : (i0 + 1 + k : ℕ) = (i0 + (k + 1) : ℕ) := by omega
            rw [harg] at h
            simpa using h
      · rw [resampleGo, if_neg hcond] at hk
        simp at hk

/-- C9: when cached frames exist at `f_cached ≥ f_out > 0`, the pipeline
reuses the cache, and output frame `i` is cached frame
`⌊i · f_cached / f_out⌋` for every `i` in range (with that index in
bounds); when `f_cached < f_out` the cache is not used. -/
theorem frameCache_resample {α : Type} [Inhabited α] (frames : List α)
    (cachedFPS requestedFPS duration : ℚ)
    (hpos : 0 < requestedFPS) (hge : requestedFPS ≤ cachedFPS) :
    usesFrameCache true cachedFPS requestedFPS = true ∧
      (∀ i, i < (framesFromCache frames cachedFPS requestedFPS duration).length →
        (framesFromCache frames cachedFPS requestedFPS duration).getD i default =
            frames.getD (⌊(i : ℚ) * (cachedFPS / requestedFPS)⌋).toNat default ∧
          (⌊(i : ℚ) * (cachedFPS / requestedFPS)⌋).toNat < frames.length) ∧
      (∀ (hasCache : Bool) (c r : ℚ), c < r → usesFrameCache hasCache c r = false) := by
  refine ⟨by simp [usesFrameCache, hge], ?_, ?_⟩
  · intro i hi
    by_cases heq : cachedFPS = requestedFPS
    · rw [framesFromCache, if_pos heq] at hi ⊢
      have hone : cachedFPS / requestedFPS = 1 := by
        rw [heq]; exact div_self (ne_of_gt hpos)
      rw [hone]
      norm_num
      exact hi
    · rw [framesFromCache, if_neg heq] at hi ⊢
      have hiv : 0 ≤ cachedFPS / requestedFPS :=
        div_nonneg (le_trans (le_of_lt hpos) hge) (le_of_lt hpos)
      have h := resampleGo_getD frames (cachedFPS / requestedFPS) hiv
        (⌈duration * requestedFPS⌉.toNat) 0 i hi
      simpa using h
  · intro hasCache c r hcr
    simp [usesFrameCache]
    intro
    linarith

/-- Witness for `frameCache_resample`: four cached frames at 20 fps,
requested 10 fps. -/
theorem frameCache_resample_witness :
    (0 : ℚ) < 10 ∧ (10 : ℚ) ≤ 20 ∧
      (usesFrameCache true 20 10 = true ∧
        (∀ i, i < (framesFromCache [0, 1, 2, 3] 20 10 (1 : ℚ)).length →
          (framesFromCache [0, 1, 2, 3] 20 10 (1 : ℚ)).getD i default =
              [0, 1, 2, 3].getD (⌊(i : ℚ) * ((20 : ℚ) / 10)⌋).toNat default ∧
            (⌊(i : ℚ) * ((20 : ℚ) / 10)⌋).toNat < [0, 1, 2, 3].length) ∧
        (∀ (hasCache : Bool) (c r : ℚ), c < r → usesFrameCache hasCache c r = false)) :=
  ⟨by norm_num, by norm_num, frameCache_resample [0, 1, 2, 3] 20 10 1
    (by norm_num) (by norm_num)⟩

/-- Witness for `findClosestColor_spec` on a concrete two-entry palette. -/
theorem findClosestColor_spec_witness :
    ([((0 : ℤ), (0 : ℤ), (0 : ℤ)), (10, 10, 10)] ≠ ([] : List RGB)) ∧
      (findClosestColor none 1 2 3 = (1, 2, 3) ∧
        ∃ l₁ l₂,
          [((0 : ℤ), (0 : ℤ), (0 : ℤ)), (10, 10, 10)] =
              l₁ ++ findClosestColor (some [(0, 0, 0), (10, 10, 10)]) 1 2 3 :: l₂ ∧
            (∀ p ∈ [((0 : ℤ), (0 : ℤ), (0 : ℤ)), (10, 10, 10)],
              dist2 1 2 3 (findClosestColor (some [(0, 0, 0), (10, 10, 10)]) 1 2 3) ≤
                dist2 1 2 3 p) ∧
            ∀ p ∈ l₁,
              dist2 1 2 3 (findClosestColor (some [(0, 0, 0), (10, 10, 10)]) 1 2 3) <
                dist2 1 2 3 p) :=
  ⟨by decide, findClosestColor_spec 1 2 3 [(0, 0, 0), (10, 10, 10)] (by decide)⟩

/-! ## Claim C8: the plain-text projection of the colored markup -/

theorem escapeChar_ne_nil (c : Char) : escapeChar c ≠ [] := by
  unfold escapeChar
  split_ifs <;> simp

theorem escapeHTML_cons (c : Char) (s : List Char) :
    escapeHTML (c :: s) = escapeChar c ++ escapeHTML s := by
  simp [escapeHTML]

theorem escapeHTML_append (s t : List Char) :
    escapeHTML (s ++ t) = escapeHTML s ++ escapeHTML t := by
  simp [escapeHTML]

theorem escapeHTML_ne_nil (s : List Char) (h : s ≠ []) : escapeHTML s ≠ [] := by
  obtain ⟨c, s, rfl⟩ := List.exists_cons_of_ne_nil h
  rw [escapeHTML_cons]
  simpa using fun hc _ => escapeChar_ne_nil c hc

theorem escapeChar_no_angle (c : Char) :
    '<' ∉ escapeChar c ∧ '>' ∉ escapeChar c := by
  by_cases h1 : c = '&'
  · subst h1; decide
  by_cases h2 : c = '<'
  · subst h2; decide
  by_cases h3 : c = '>'
  · subst h3; decide
  by_cases h4 : c = '"'
  · subst h4; decide
  by_cases h5 : c = '\''
  · subst h5; decide
  rw [escapeChar, if_neg h1, if_neg h2, if_neg h3, if_neg h4, if_neg h5]
  constructor <;> intro hm <;> simp only [List.mem_singleton] at hm
  · exact h2 hm.symm
  · exact h3 hm.symm

theorem escapeHTML_no_lt (s : List Char) : '<' ∉ escapeHTML s := by
  intro hmem
  rw [escapeHTML, List.mem_flatMap] at hmem
  obtain ⟨c, _, hc⟩ := hmem
  exact (escapeChar_no_angle c).1 hc

theorem stripTagsGo_cons_plain (c : Char) (hc : c ≠ '<') (t : List Char) :
    stripTagsGo false (c :: t) = c :: stripTagsGo false t := by
  simp [stripTagsGo, hc]

theorem stripTagsGo_true_cons (c : Char) (hc : c ≠ '>') (t : List Char) :
    stripTagsGo true (c :: t) = stripTagsGo true t := by
  simp [stripTagsGo, hc]

theorem stripTagsGo_false_append (xs : List Char) (hx : '<' ∉ xs) (t : List Char) :
    stripTagsGo false (xs ++ t) = xs ++ stripTagsGo false t := by
  induction xs with
  | nil => rfl
  | cons c xs ih =>
      have hc : c ≠ '<' := fun h => hx (h ▸ List.mem_cons_self c xs)
      have hxs : '<' ∉ xs := fun h => hx (List.mem_cons_of_mem c h)
      rw [List.cons_append, stripTagsGo_cons_plain c hc, ih hxs, List.cons_append]

theorem stripTagsGo_true_append (xs : List Char) (hx : '>' ∉ xs) (t : List Char) :
    stripTagsGo true (xs ++ '>' :: t) = stripTagsGo false t := by
  induction xs with
  | nil => simp [stripTagsGo]
  | cons c xs ih =>
      have hc : c ≠ '>' := fun h => hx (h ▸ List.mem_cons_self c xs)
      have hxs : '>' ∉ xs := fun h => hx (List.mem_cons_of_mem c h)
      rw [List.cons_append, stripTagsGo_true_cons c hc, ih hxs]

theorem stripTagsGo_spanOpen (col : List Char) (hcol : '>' ∉ col) (t : List Char) :
    stripTagsGo false (spanOpen col ++ t) = stripTagsGo false t := by
  have hshape :
      spanOpen col ++ t =
        '<' :: (("span style=\"color:".toList ++ col ++ ['"']) ++ '>' :: t) := by
    simp [spanOpen]
  rw [hshape]
  have hne : '>' ∉ "span style=\"color:".toList ++ col ++ ['"'] := by
    intro hmem
    rcases List.mem_append.mp hmem with hmem | hmem
    · rcases List.mem_append.mp hmem with hmem | hmem
      · revert hmem; decide
      · exact hcol hmem
    · revert hmem; decide
  have hstep :
      stripTagsGo false
          ('<' :: (("span style=\"color:".toList ++ col ++ ['"']) ++ '>' :: t)) =
        stripTagsGo true (("span style=\"color:".toList ++ col ++ ['"']) ++ '>' :: t) := by
    simp [stripTagsGo]
  rw [hstep, stripTagsGo_true_append _ hne]

theorem stripTagsGo_spanClose (t : List Char) :
    stripTagsGo false (spanClose ++ t) = stripTagsGo false t := by
  have hshape : spanClose ++ t = '<' :: ("/span".toList ++ '>' :: t) := by
    simp [spanClose]
  rw [hshape]
  have hstep : stripTagsGo false ('<' :: ("/span".toList ++ '>' :: t)) =
      stripTagsGo true ("/span".toList ++ '>' :: t) := by
    simp [stripTagsGo]
  rw [hstep, stripTagsGo_true_append _ (by decide)]

theorem stripTagsGo_flushSpan (s col t : List Char) (hcol : '>' ∉ col) :
    stripTagsGo false (flushSpan (escapeHTML s) col ++ t) =
      escapeHTML s ++ stripTagsGo false t := by
  by_cases hs : s = []
  · subst hs
    simp [flushSpan, escapeHTML]
  · rw [flushSpan, if_neg (escapeHTML_ne_nil s hs)]
    have hshape :
        (spanOpen col ++ escapeHTML s ++ spanClose) ++ t =
          spanOpen col ++ (escapeHTML s ++ (spanClose ++ t)) := by
      simp [List.append_assoc]
    rw [hshape, stripTagsGo_spanOpen col hcol,
      stripTagsGo_false_append _ (escapeHTML_no_lt s), stripTagsGo_spanClose]

theorem unescapeHTML_cons_ne (c : Char) (hc : c ≠ '&') (t : List Char) :
    unescapeHTML (c :: t) = c :: unescapeHTML t := by
  rw [unescapeHTML, if_neg hc]

theorem unescapeHTML_amp (r : List Char) :
    unescapeHTML ('&' :: ('a' :: 'm' :: 'p' :: ';' :: r)) = '&' :: unescapeHTML r := by
  rw [unescapeHTML, if_pos rfl, if_pos (by simp)]
  simp

theorem unescapeHTML_lt (r : List Char) :
    unescapeHTML ('&' :: ('l' :: 't' :: ';' :: r)) = '<' :: unescapeHTML r := by
  rw [unescapeHTML, if_pos rfl, if_neg (by simp), if_pos (by simp)]
  simp

theorem unescapeHTML_gt (r : List Char) :
    unescapeHTML ('&' :: ('g' :: 't' :: ';' :: r)) = '>' :: unescapeHTML r := by
  rw [unescapeHTML, if_pos rfl, if_neg (by simp), if_neg (by simp), if_pos (by simp)]
  simp

theorem unescapeHTML_quot (r : List Char) :
    unescapeHTML ('&' :: ('q' :: 'u' :: 'o' :: 't' :: ';' :: r)) =
      '"' :: unescapeHTML r := by
  rw [unescapeHTML, if_pos rfl, if_neg (by simp), if_neg (by simp), if_neg (by simp),
    if_pos (by simp)]
  simp

theorem unescapeHTML_apos (r : List Char) :
    unescapeHTML ('&' :: ('#' :: '0' :: '3' :: '9' :: ';' :: r)) =
      '\'' :: unescapeHTML r := by
  rw [unescapeHTML, if_pos rfl, if_neg (by simp), if_neg (by simp), if_neg (by simp),
    if_neg (by simp), if_pos (by simp)]
  simp

theorem unescapeHTML_escapeChar (c : Char) (t : List Char) :
    unescapeHTML (escapeChar c ++ t) = c :: unescapeHTML t := by
  by_cases h1 : c = '&'
  · subst h1; rw [escapeChar, if_pos rfl]; exact unescapeHTML_amp t
  · by_cases h2 : c = '<'
    · subst h2; rw [escapeChar, if_neg (by decide), if_pos rfl]; exact unescapeHTML_lt t
    · by_cases h3 : c = '>'
      · subst h3
        rw [escapeChar, if_neg (by decide), if_neg (by decide), if_pos rfl]
        exact unescapeHTML_gt t
      · by_cases h4 : c = '"'
        · subst h4
          rw [escapeChar, if_neg (by decide), if_neg (by decide), if_neg (by decide),
            if_pos rfl]
          exact unescapeHTML_quot t
        · by_cases h5 : c = '\''
          · subst h5
            rw [escapeChar, if_neg (by decide), if_neg (by decide), if_neg (by decide),
              if_neg (by decide), if_pos rfl]
            exact unescapeHTML_apos t
          · rw [escapeChar, if_neg h1, if_neg h2, if_neg h3, if_neg h4, if_neg h5]
            exact unescapeHTML_cons_ne c h1 t

theorem unescapeHTML_escapeHTML (s t : List Char) :
    unescapeHTML (escapeHTML s ++ t) = s ++ unescapeHTML t := by
  induction s with
  | nil => simp [escapeHTML]
  | cons c s ih =>
      rw [escapeHTML_cons, List.append_assoc, unescapeHTML_escapeChar, ih]
      rfl

theorem digitChar_ne_gt (n : ℕ) : digitChar n ≠ '>' := by
  unfold digitChar
  by_cases hn : n < ("0123456789".toList).length
  · rw [List.getD_eq_getElem _ _ hn]
    have hall : ∀ c ∈ "0123456789".toList, c ≠ '>' := by decide
    exact hall _ (List.getElem_mem hn)
  · rw [List.getD_eq_default _ _ (Nat.le_of_not_lt hn)]
    decide

theorem natDigitsGo_no_gt : ∀ (fuel n : ℕ), '>' ∉ natDigitsGo fuel n := by
  intro fuel
  induction fuel with
  | zero => intro n; simp [natDigitsGo]
  | succ fuel ih =>
      intro n
      rw [natDigitsGo]
      by_cases h : n < 10
      · rw [if_pos h]
        intro hmem
        simp only [List.mem_singleton] at hmem
        exact digitChar_ne_gt n hmem.symm
      · rw [if_neg h]
        intro hmem
        rcases List.mem_append.mp hmem with hmem | hmem
        · exact ih (n / 10) hmem
        · simp only [List.mem_singleton] at hmem
          exact digitChar_ne_gt (n % 10) hmem.symm

theorem natDigits_no_gt (n : ℕ) : '>' ∉ natDigits n := natDigitsGo_no_gt (n + 1) n

theorem intStr_no_gt (z : ℤ) : '>' ∉ intStr z := by
  unfold intStr
  split_ifs
  · intro hmem
    rcases List.mem_cons.mp hmem with h | h
    · revert h; decide
    · exact natDigits_no_gt _ h
  · exact natDigits_no_gt _

theorem rgbString_no_gt (p : RGB) : '>' ∉ rgbString p := by
  unfold rgbString
  intro hmem
  simp only [List.append_assoc, List.mem_append, List.mem_cons, List.mem_singleton,
    List.not_mem_nil, or_false] at hmem
  rcases hmem with h | h | h | h | h | h | h
  · revert h; decide
  · exact intStr_no_gt _ h
  · exact absurd h (by decide)
  · exact intStr_no_gt _ h
  · exact absurd h (by decide)
  · exact intStr_no_gt _ h
  · exact absurd h (by decide)

theorem hexDigit_ne_gt (n : ℕ) : hexDigit n ≠ '>' := by
  unfold hexDigit
  by_cases hn : n < ("0123456789abcdef".toList).length
  · rw [List.getD_eq_getElem _ _ hn]
    have hall : ∀ c ∈ "0123456789abcdef".toList, c ≠ '>' := by decide
    exact hall _ (List.getElem_mem hn)
  · rw [List.getD_eq_default _ _ (Nat.le_of_not_lt hn)]
    decide

theorem hex2_no_gt (z : ℤ) : '>' ∉ hex2 z := by
  unfold hex2
  intro hmem
  rcases List.mem_cons.mp hmem with h | h
  · exact hexDigit_ne_gt _ h.symm
  · simp only [List.mem_singleton] at h
    exact hexDigit_ne_gt _ h.symm

theorem hexString_no_gt (p : RGB) : '>' ∉ hexString p := by
  unfold hexString
  intro hmem
  rcases List.mem_cons.mp hmem with h | h
  · revert h; decide
  · rcases List.mem_append.mp h with h | h
    · rcases List.mem_append.mp h with h | h
      · exact hex2_no_gt _ h
      · exact hex2_no_gt _ h
    · exact hex2_no_gt _ h

theorem colorStrOf_no_gt (o : ConvOptions) (c : RGB) : '>' ∉ colorStrOf o c := by
  unfold colorStrOf
  split_ifs
  · cases hp : o.colorPalette with
    | none => exact rgbString_no_gt c
    | some pal => exact hexString_no_gt _
  · exact rgbString_no_gt c

theorem lineGo_proj (o : ConvOptions) :
    ∀ (cells : List (Char × RGB)) (s : List Char) (col : Option (List Char))
      (K : List Char), '>' ∉ col.getD ("null".toList) →
      unescapeHTML (stripTagsGo false (lineGo o cells (escapeHTML s) col ++ K)) =
        s ++ cells.map (fun cl => if isBlankChar cl.1 then ' ' else cl.1) ++
          '\n' :: unescapeHTML (stripTagsGo false K) := by
  intro cells
  induction cells with
  | nil =>
      intro s col K hcol
      have hstep : lineGo o [] (escapeHTML s) col =
          flushSpan (escapeHTML s) (col.getD ("null".toList)) ++ ['\n'] := rfl
      rw [hstep, List.append_assoc, List.singleton_append,
        stripTagsGo_flushSpan _ _ _ hcol, stripTagsGo_cons_plain '\n' (by decide),
        unescapeHTML_escapeHTML, unescapeHTML_cons_ne '\n' (by decide)]
      simp
  | cons hd cells ih =>
      intro s col K hcol
      obtain ⟨ch, c⟩ := hd
      by_cases hbl : isBlankChar ch
      · have hstep : lineGo o ((ch, c) :: cells) (escapeHTML s) col =
            flushSpan (escapeHTML s) (col.getD ("null".toList)) ++
              ' ' :: lineGo o cells [] none := by
          simp [lineGo, hbl]
        rw [hstep, List.append_assoc, List.cons_append,
          stripTagsGo_flushSpan _ _ _ hcol, stripTagsGo_cons_plain ' ' (by decide),
          unescapeHTML_escapeHTML, unescapeHTML_cons_ne ' ' (by decide)]
        have hx := ih [] none K (by decide)
        rw [show escapeHTML [] = [] from rfl] at hx
        rw [hx]
        simp [hbl]
      · by_cases hcs : col = some (colorStrOf o c)
        · have hstep : lineGo o ((ch, c) :: cells) (escapeHTML s) col =
              lineGo o cells (escapeHTML s ++ escapeChar ch) col := by
            simp [lineGo, hbl, hcs]
          have hesc : escapeHTML s ++ escapeChar ch = escapeHTML (s ++ [ch]) := by
            rw [escapeHTML_append]
            simp [escapeHTML]
          rw [hstep, hesc, ih (s ++ [ch]) col K hcol]
          simp [hbl]
        · have hstep : lineGo o ((ch, c) :: cells) (escapeHTML s) col =
              flushSpan (escapeHTML s) (col.getD ("null".toList)) ++
                lineGo o cells (escapeChar ch) (some (colorStrOf o c)) := by
            simp [lineGo, hbl, hcs]
          have hch : escapeChar ch = escapeHTML [ch] := by simp [escapeHTML]
          rw [hstep, List.append_assoc, stripTagsGo_flushSpan _ _ _ hcol,
            unescapeHTML_escapeHTML, hch,
            ih [ch] (some (colorStrOf o c)) K (by simpa using colorStrOf_no_gt o c)]
          simp [hbl]

theorem displayHTML_proj_rows (o : ConvOptions) (grid : List (List (Char × RGB))) :
    unescapeHTML (stripTagsGo false (generateDisplayHTML o grid)) =
      (grid.map fun row =>
        row.map (fun cl => if isBlankChar cl.1 then ' ' else cl.1) ++ ['\n']).flatten := by
  induction grid with
  | nil =>
      rw [show generateDisplayHTML o [] = [] from rfl,
        show stripTagsGo false [] = [] from rfl, unescapeHTML]
      rfl
  | cons row rows ih =>
      have hstep : generateDisplayHTML o (row :: rows) =
          lineGo o row [] none ++ generateDisplayHTML o rows := by
        simp [generateDisplayHTML]
      have h := lineGo_proj o row [] none (generateDisplayHTML o rows) (by decide)
      rw [show escapeHTML [] = [] from rfl] at h
      rw [hstep, h, ih]
      simp

theorem flatten_newline_eq_joinLines :
    ∀ l : List (List Char), l ≠ [] →
      (l.map (· ++ ['\n'])).flatten = joinLines l ++ ['\n'] := by
  intro l
  induction l with
  | nil => intro h; exact absurd rfl h
  | cons x xs ih =>
      intro _
      cases xs with
      | nil => simp [joinLines]
      | cons y ys =>
          have hjl : joinLines (x :: y :: ys) = x ++ '\n' :: joinLines (y :: ys) := rfl
          have hfl : ((x :: y :: ys).map (· ++ ['\n'])).flatten =
              (x ++ ['\n']) ++ ((y :: ys).map (· ++ ['\n'])).flatten := by
            simp
          rw [hfl, ih (by simp), hjl]
          simp

theorem blank_proj_eq_normalize (c : Char) :
    (if isBlankChar c then ' ' else c) = normalizeChar c := by
  by_cases h1 : c = ' '
  · subst h1; decide
  by_cases h2 : c = '⠀'
  · subst h2; decide
  have hb : isBlankChar c = false := by
    simp [isBlankChar, h1, h2]
  simp [hb, normalizeChar, h2]

/-- C8 (counterexample): the plain-text projection of the colored markup
does NOT agree exactly with the plain-text export: `generateDisplayHTML`
appends `'\n'` after every row, including the last, while the text
export joins rows with `'\n'` separators.  On the 1×1 grid `[['@']]` the
projection is `"@\n"` but the text export is `"@"`. -/
theorem displayHTML_projection_counterexample :
    projectText (generateDisplayHTML {} [[('@', ((0 : ℤ), (0 : ℤ), (0 : ℤ)))]]) ≠
      textExport [[('@', ((0 : ℤ), (0 : ℤ), (0 : ℤ)))]] := by
  rw [projectText, displayHTML_proj_rows]
  decide

/-- C8 (amended): for every non-empty glyph grid, the character-by-
character plain-text projection of the colored markup (strip style
spans, undo HTML escaping) equals the plain-text export followed by one
trailing `'\n'` — i.e. the two agree exactly after also dropping the
markup's single trailing newline (blank normalization applied on both
sides as claimed). -/
theorem displayHTML_text_projection (o : ConvOptions)
    (grid : List (List (Char × RGB))) (hne : grid ≠ []) :
    projectText (generateDisplayHTML o grid) = textExport grid ++ ['\n'] := by
  rw [projectText, displayHTML_proj_rows, textExport]
  have hmap :
      (grid.map fun row =>
          row.map (fun cl => if isBlankChar cl.1 then ' ' else cl.1) ++ ['\n']) =
        (grid.map fun row => row.map fun cl => normalizeChar cl.1).map (· ++ ['\n']) := by
    rw [List.map_map]
    apply List.map_congr_left
    intro row _
    simp only [Function.comp]
    congr 1
    apply List.map_congr_left
    intro cl _
    exact blank_proj_eq_normalize cl.1
  rw [hmap, flatten_newline_eq_joinLines _ (by simpa using hne)]

/-- Witness for `displayHTML_text_projection` on the 1×1 grid `[['@']]`. -/
theorem displayHTML_text_projection_witness :
    ([[('@', ((0 : ℤ), (0 : ℤ), (0 : ℤ)))]] ≠ ([] : List (List (Char × RGB)))) ∧
      projectText (generateDisplayHTML {} [[('@', ((0 : ℤ), (0 : ℤ), (0 : ℤ)))]]) =
        textExport [[('@', ((0 : ℤ), (0 : ℤ), (0 : ℤ)))]] ++ ['\n'] :=
  ⟨by decide, displayHTML_text_projection {} _ (by decide)⟩

/-! ## Claim C2: the LZW stream and its missing end-of-stream flush -/

/-- C2 (code evaluation at the failing input): encoding the 1×1
indexed-pixel array `[0]` emits only the initial code-size byte and the
zero-length terminator — `[8, 0]` — because `compress` never calls
`flush_char` after the EOF code (the canonical encoder does), so the
CLEAR/pixel/EOF codes still sitting in the 254-byte accumulator (3
bytes) and the bit accumulator (3 bits) are dropped.  The sub-block
stream therefore decodes to the empty pixel array, not to `[0]`: the
round-trip fails. -/
theorem lzwEncode_drops_buffered_tail :
    lzwEncode 1 1 [0] 8 = [8, 0] ∧
      subBlocksData ((lzwEncode 1 1 [0] 8).drop 1) = [] := by
  decide

/-! ## Claim C3: GIF89a byte-stream structure -/

theorem analyzePixels_out (st : GifState) (p : List ℤ) :
    (analyzePixels st p).out = st.out := rfl

theorem addFrame_out_append (st : GifState) (img : List ℤ) :
    ∃ t, (addFrame st img).out = st.out ++ t :=
  ⟨addFrameBytes (analyzePixels st (getImagePixels st.width st.height img)), rfl⟩

theorem foldl_addFrame_out (fs : List (List ℤ)) :
    ∀ st : GifState, ∃ t, (fs.foldl addFrame st).out = st.out ++ t := by
  induction fs with
  | nil => intro st; exact ⟨[], by simp⟩
  | cons f fs ih =>
      intro st
      obtain ⟨t1, h1⟩ := ih (addFrame st f)
      obtain ⟨t0, h0⟩ := addFrame_out_append st f
      exact ⟨t0 ++ t1, by simp [List.foldl_cons, h1, h0]⟩

theorem flatMap_length_const {α β : Type} (l : List α) (f : α → List β) (n : ℕ)
    (h : ∀ a, (f a).length = n) : (l.flatMap f).length = l.length * n := by
  induction l with
  | nil => simp
  | cons a l ih =>
      rw [List.flatMap_cons, List.length_append, h a, ih, List.length_cons]
      ring

theorem colorMap_length (network : Array NQEntry) :
    (colorMap network).length = 768 := by
  simp only [colorMap]
  refine Eq.trans (flatMap_length_const _ _ 3 fun a => rfl) ?_
  simp

theorem firstFrameColorTab_length (w h q : ℕ) (f : List ℤ) :
    (firstFrameColorTab w h q f).length = 768 :=
  colorMap_length _

theorem writePaletteBytes_length (tab : List ℚ) (h : tab.length = 768) :
    (writePaletteBytes tab).length = 768 := by
  simp [writePaletteBytes, h]

theorem addFrame_out_eq (st : GifState) (img : List ℤ) :
    (addFrame st img).out =
      (analyzePixels st (getImagePixels st.width st.height img)).out ++
        addFrameBytes (analyzePixels st (getImagePixels st.width st.height img)) := rfl

theorem addFrame_init_out (w h q : ℕ) (f : List ℤ) :
    ∃ rest, (addFrame (initGifState w h q) f).out =
      writeLSDBytes w h ++ (writePaletteBytes (firstFrameColorTab w h q f) ++ rest) := by
  have h1 : (analyzePixels (initGifState w h q) (getImagePixels w h f)).firstFrame
      = true := rfl
  have h2 : (analyzePixels (initGifState w h q) (getImagePixels w h f)).repeatCount
      = 0 := rfl
  have h3 : (analyzePixels (initGifState w h q) (getImagePixels w h f)).width = w := rfl
  have h4 : (analyzePixels (initGifState w h q) (getImagePixels w h f)).height = h := rfl
  have h5 : (analyzePixels (initGifState w h q) (getImagePixels w h f)).colorTab
      = some (firstFrameColorTab w h q f) := rfl
  have h6 : (analyzePixels (initGifState w h q) (getImagePixels w h f)).out = [] := rfl
  refine ⟨writeNetscapeBytes 0 ++
    (writeGraphicCtrlBytes (analyzePixels (initGifState w h q) (getImagePixels w h f)) ++
      (writeImageDescBytes (analyzePixels (initGifState w h q) (getImagePixels w h f)) ++
        lzwEncode w h
          (analyzePixels (initGifState w h q) (getImagePixels w h f)).indexedPixels 8)), ?_⟩
  have hout : (addFrame (initGifState w h q) f).out =
      (analyzePixels (initGifState w h q) (getImagePixels w h f)).out ++
        addFrameBytes (analyzePixels (initGifState w h q) (getImagePixels w h f)) := rfl
  rw [hout, h6, List.nil_append]
  simp only [addFrameBytes, h1, h2, h3, h4, h5, Option.getD_some]
  simp [List.append_assoc]

theorem asciiBytes_header : asciiBytes "GIF89a" = [71, 73, 70, 56, 57, 97] := by
  decide

theorem writeLSDBytes_length (w h : ℕ) : (writeLSDBytes w h).length = 13 := by
  simp [writeLSDBytes, writeShortBytes, asciiBytes_header]

/-- C3: for every non-empty frame sequence, the emitted byte stream
starts with the six ASCII bytes `GIF89a`, ends with the trailer `0x3B`,
and the 768 bytes immediately after the 13-byte header + logical screen
descriptor are exactly the first frame's color table padded with zeros
to 3·256 bytes. -/
theorem gifEncode_structure (w h q : ℕ) (frames : List (List ℤ))
    (hne : frames ≠ []) :
    (gifEncode w h q frames).take 6 = [71, 73, 70, 56, 57, 97] ∧
      (gifEncode w h q frames).getLast? = some 0x3B ∧
      ((gifEncode w h q frames).drop 13).take 768 =
          (writePaletteBytes (firstFrameColorTab w h q (frames.headD []))).map byteOf ∧
      ((writePaletteBytes (firstFrameColorTab w h q (frames.headD []))).map byteOf).length
        = 768 := by
  obtain ⟨f, fs, rfl⟩ := List.exists_cons_of_ne_nil hne
  obtain ⟨t, ht⟩ := foldl_addFrame_out fs (addFrame (initGifState w h q) f)
  obtain ⟨rest, hrest⟩ := addFrame_init_out w h q f
  have hout : (gifFinish (List.foldl addFrame (initGifState w h q) (f :: fs))).out =
      writeLSDBytes w h ++
        (writePaletteBytes (firstFrameColorTab w h q f) ++
          (rest ++ t ++ [0x3b])) := by
    simp only [gifFinish, List.foldl_cons, ht, hrest]
    simp [List.append_assoc]
  have hdata : gifEncode w h q (f :: fs) =
      (writeLSDBytes w h).map byteOf ++
        ((writePaletteBytes (firstFrameColorTab w h q f)).map byteOf ++
          ((rest ++ t).map byteOf ++ [byteOf 0x3b])) := by
    simp only [gifEncode, gifData, hout]
    simp [List.map_append]
  have hlen13 : ((writeLSDBytes w h).map byteOf).length = 13 := by
    simp [writeLSDBytes_length]
  have hlen768 :
      ((writePaletteBytes (firstFrameColorTab w h q f)).map byteOf).length = 768 := by
    simp [writePaletteBytes_length _ (firstFrameColorTab_length w h q f)]
  refine ⟨?_, ?_, ?_, by simpa using hlen768⟩
  · rw [hdata]
    have hlsd : (writeLSDBytes w h).map byteOf =
        [71, 73, 70, 56, 57, 97] ++
          ((writeShortBytes (w : ℤ)).map byteOf ++ (writeShortBytes (h : ℤ)).map byteOf ++
            [byteOf (0x80 + 0x70 + 7), byteOf 0, byteOf 0]) := by
      simp [writeLSDBytes, asciiBytes_header, List.map_append]
      decide
    rw [hlsd, List.append_assoc, List.take_left' (by decide)]
  · rw [hdata]
    have : (writeLSDBytes w h).map byteOf ++
        ((writePaletteBytes (firstFrameColorTab w h q f)).map byteOf ++
          ((rest ++ t).map byteOf ++ [byteOf 0x3b])) =
        ((writeLSDBytes w h).map byteOf ++
          ((writePaletteBytes (firstFrameColorTab w h q f)).map byteOf ++
            (rest ++ t).map byteOf)) ++ [byteOf 0x3b] := by
      simp [List.append_assoc]
    rw [this, List.getLast?_concat]
    rfl
  · rw [hdata, List.drop_left' hlen13, List.take_left' hlen768]
    rfl

/-- Witness for `gifEncode_structure`: a single 1×1 black frame. -/
theorem gifEncode_structure_witness :
    ([[(0 : ℤ), 0, 0, 255]] ≠ ([] : List (List ℤ))) ∧
      ((gifEncode 1 1 10 [[0, 0, 0, 255]]).take 6 = [71, 73, 70, 56, 57, 97] ∧
        (gifEncode 1 1 10 [[0, 0, 0, 255]]).getLast? = some 0x3B ∧
        ((gifEncode 1 1 10 [[0, 0, 0, 255]]).drop 13).take 768 =
            (writePaletteBytes (firstFrameColorTab 1 1 10
              ([[(0 : ℤ), 0, 0, 255]].headD []))).map byteOf ∧
        ((writePaletteBytes (firstFrameColorTab 1 1 10
            ([[(0 : ℤ), 0, 0, 255]].headD []))).map byteOf).length = 768) :=
  ⟨by decide, gifEncode_structure 1 1 10 [[0, 0, 0, 255]] (by decide)⟩

/-! ## Claim C10: the GIF encoder ignores the alpha channel -/

theorem getImagePixels_alpha_blind (w h : ℕ) (d1 d2 : List ℤ)
    (hagree : ∀ k, k < 4 * w * h → k % 4 ≠ 3 → d1.getD k 0 = d2.getD k 0) :
    getImagePixels w h d1 = getImagePixels w h d2 := by
  unfold getImagePixels
  apply List.flatMap_congr
  intro i hi
  apply List.flatMap_congr
  intro j hj
  rw [List.mem_range] at hi hj
  have hij : i * w + j < h * w := by
    calc i * w + j < i * w + w := by omega
    _ = (i + 1) * w := by ring
    _ ≤ h * w := Nat.mul_le_mul_right w hi
  have key : ∀ c : ℕ, c < 3 →
      d1.getD (i * w * 4 + j * 4 + c) 0 = d2.getD (i * w * 4 + j * 4 + c) 0 := by
    intro c hc
    apply hagree
    · have e : 4 * w * h = 4 * (h * w) := by ring
      rw [e]
      omega
    · omega
  have k0 := key 0 (by omega)
  have k1 := key 1 (by omega)
  have k2 := key 2 (by omega)
  simp only [Nat.add_zero] at k0
  rw [k0, k1, k2]

/-- C10: `addFrame` ignores the alpha channel — two RGBA frame buffers
of the same dimensions that agree on the R, G and B lanes of every
pixel but differ arbitrarily in alpha append identical bytes to the
output stream (`getImagePixels` copies only the three color lanes, and
everything downstream is a function of that copy). -/
theorem addFrame_alpha_blind (st : GifState) (d1 d2 : List ℤ)
    (hagree : ∀ k, k < 4 * st.width * st.height → k % 4 ≠ 3 →
      d1.getD k 0 = d2.getD k 0) :
    (addFrame st d1).out = (addFrame st d2).out := by
  have hpix := getImagePixels_alpha_blind st.width st.height d1 d2 hagree
  unfold addFrame
  rw [hpix]

/-- Witness for `addFrame_alpha_blind`: two 1×1 buffers agreeing on RGB
with different alpha. -/
theorem addFrame_alpha_blind_witness :
    (∀ k, k < 4 * (initGifState 1 1 10).width * (initGifState 1 1 10).height →
        k % 4 ≠ 3 → ([1, 2, 3, 4] : List ℤ).getD k 0 = ([1, 2, 3, 255] : List ℤ).getD k 0) ∧
      (addFrame (initGifState 1 1 10) [1, 2, 3, 4]).out =
        (addFrame (initGifState 1 1 10) [1, 2, 3, 255]).out :=
  ⟨by decide, addFrame_alpha_blind (initGifState 1 1 10) [1, 2, 3, 4] [1, 2, 3, 255]
    (by decide)⟩

end Glyphify
